import Mathlib

/-!
Verification development for the e-commerce event-processing service
(`app/processor.py` of the repository, with `app/bq_client.py` as the sink
boundary).  The Python code is shallowly embedded: strings are lists of
characters, `datetime` values are calendar records with an optional UTC
offset in minutes, JSON payloads are a `Value` tree, the BigQuery writer is
an explicit function from attempt index and attempt to an optional raised
exception, and `process_event` returns the ordered list of attempted sink
writes together with the exception (if any) that escapes it.  Exceptions
that the Python code can raise but does not catch (the `OverflowError`
escaping `datetime.astimezone` at the bounds of the representable year
range, and `RuntimeError` from the sink writer) are modelled explicitly.
-/

/-- Python strings are modelled as lists of characters. -/
abbrev Str := List Char

/-- Helper to write string constants. -/
def strL (s : String) : Str := s.toList

/-- Decimal digit character for `d < 10` (used by `datetime.isoformat`). -/
def digit_char (d : Nat) : Char :=
  match d with
  | 0 => '0' | 1 => '1' | 2 => '2' | 3 => '3' | 4 => '4'
  | 5 => '5' | 6 => '6' | 7 => '7' | 8 => '8' | 9 => '9'
  | _ => '?'

/-- Numeric value of a digit character. -/
def char_val (c : Char) : Nat := c.toNat - 48

/-- Recogniser for ASCII decimal digits. -/
def is_digit_c (c : Char) : Bool := 48 ≤ c.toNat && c.toNat ≤ 57

/-- Zero-padded fixed-width decimal rendering: `nat_digits k n` is the
`k`-character decimal rendering of `n % 10 ^ k`, most significant first. -/
def nat_digits : Nat → Nat → Str
  | 0, _ => []
  | k + 1, n => digit_char (n / 10 ^ k % 10) :: nat_digits k n

/-- Read exactly `k` decimal digits, accumulating their value onto `acc`. -/
def read_n_aux : Nat → Nat → Str → Option (Nat × Str)
  | 0, acc, s => some (acc, s)
  | k + 1, acc, c :: s => if is_digit_c c then read_n_aux k (acc * 10 + char_val c) s else none
  | _ + 1, _, [] => none

/-- Read exactly `k` decimal digits from the front of `s`. -/
def read_n (k : Nat) (s : Str) : Option (Nat × Str) := read_n_aux k 0 s

/-- Expect one specific character at the front of `s`. -/
def expect_char (c : Char) : Str → Option Str
  | x :: rest => if x = c then some rest else none
  | [] => none

/-- Value of a digit string under left-to-right accumulation. -/
def digits_val (l : Str) : Nat := l.foldl (fun a c => a * 10 + char_val c) 0

/-- Fuel-driven worker for `replace_all` (structural so the kernel can
evaluate it). -/
def replace_all_fuel (pat rep : Str) : Nat → Str → Str
  | 0, s => s
  | _ + 1, [] => []
  | fuel + 1, c :: rest =>
    if pat.isPrefixOf (c :: rest) then
      rep ++ replace_all_fuel pat rep fuel (List.drop pat.length (c :: rest))
    else
      c :: replace_all_fuel pat rep fuel rest

/-- Python `str.replace(pat, rep)`: replace every occurrence left to right.
The Python call sites never use an empty pattern, which we return unchanged. -/
def replace_all (pat rep s : Str) : Str :=
  if pat = [] then s else replace_all_fuel pat rep s.length s

/-- Python whitespace characters recognised by `str.strip()`. -/
def is_ws (c : Char) : Bool :=
  c = ' ' || c = '\t' || c = '\n' || c = '\r' || c = (Char.ofNat 11) || c = (Char.ofNat 12)

/-- Python `str.strip()` with no arguments. -/
def strip_ws (s : Str) : Str :=
  ((s.dropWhile is_ws).reverse.dropWhile is_ws).reverse

/-- Exact decimal number `m * 10 ^ (-e)`: the embedding of the JSON /
Python numbers flowing through the pipeline (prices, epoch stamps).  The
Python code never does arithmetic on them beyond an order comparison, so an
unreduced decimal representation is faithful and keeps every comparison
kernel-computable. -/
structure Dec where
  m : Int
  e : Nat
deriving DecidableEq

/-- Numeric order comparison `a ≤ b` on exact decimals. -/
def Dec.le (a b : Dec) : Bool := a.m * (10 : Int) ^ b.e ≤ b.m * (10 : Int) ^ a.e

/-- Numeric equality on exact decimals (Python `==` on floats). -/
def Dec.numEq (a b : Dec) : Bool := a.m * (10 : Int) ^ b.e = b.m * (10 : Int) ^ a.e

/-- Embedding of Python `datetime.datetime`: Gregorian calendar fields plus
an optional fixed UTC offset in minutes (`tz = none` models a naive
datetime; `tz = some 0` models `tzinfo=UTC`). -/
structure DateTime where
  year : Nat
  month : Nat
  day : Nat
  hour : Nat
  minute : Nat
  second : Nat
  microsecond : Nat
  tz : Option Int
deriving DecidableEq

instance : Inhabited DateTime := ⟨⟨1, 1, 1, 0, 0, 0, 0, none⟩⟩

/-- Gregorian leap-year test. -/
def is_leap (y : Nat) : Bool := (y % 4 = 0 && y % 100 ≠ 0) || y % 400 = 0

/-- Days in a month of the proleptic Gregorian calendar (months outside
1..12 never occur on valid data; the value there is irrelevant). -/
def days_in_month (y mo : Nat) : Nat :=
  if mo = 2 then (if is_leap y then 29 else 28)
  else if mo = 4 ∨ mo = 6 ∨ mo = 9 ∨ mo = 11 then 30
  else 31

/-- Date-field validity exactly as enforced by the `datetime` constructor:
`MINYEAR = 1`, `MAXYEAR = 9999`. -/
def date_ok (y mo d : Nat) : Prop :=
  1 ≤ y ∧ y ≤ 9999 ∧ 1 ≤ mo ∧ mo ≤ 12 ∧ 1 ≤ d ∧ d ≤ days_in_month y mo

instance (y mo d : Nat) : Decidable (date_ok y mo d) :=
  inferInstanceAs (Decidable (_ ∧ _))

/-- Offset bound enforced by `datetime.timezone`: strictly under one day. -/
def off_bound : Option Int → Prop
  | none => True
  | some o => o.natAbs ≤ 1439

instance : (t : Option Int) → Decidable (off_bound t)
  | none => .isTrue trivial
  | some o => inferInstanceAs (Decidable (o.natAbs ≤ 1439))

def DateTime.Valid (dt : DateTime) : Prop :=
  date_ok dt.year dt.month dt.day ∧ dt.hour ≤ 23 ∧ dt.minute ≤ 59 ∧
    dt.second ≤ 59 ∧ dt.microsecond ≤ 999999 ∧ off_bound dt.tz

instance (dt : DateTime) : Decidable dt.Valid :=
  inferInstanceAs (Decidable (_ ∧ _))

/-- Time-of-day and offset are in range and the offset is exactly UTC: the
shape of every datetime the program passes to `_to_rfc3339`. -/
def TimeOk (dt : DateTime) : Prop :=
  dt.hour ≤ 23 ∧ dt.minute ≤ 59 ∧ dt.tz = some 0

instance (dt : DateTime) : Decidable (TimeOk dt) := by
  unfold TimeOk; exact instDecidableAnd

/-- Python `dt.replace(tzinfo=UTC)`: stamp UTC on the fields unchanged. -/
def with_utc0 (dt : DateTime) : DateTime := { dt with tz := some 0 }

/-- Previous calendar day; `none` models the `OverflowError` raised when the
result would leave the representable range (year 0). -/
def prev_day (y mo d : Nat) : Option (Nat × Nat × Nat) :=
  if 2 ≤ d then some (y, mo, d - 1)
  else if 2 ≤ mo then some (y, mo - 1, days_in_month y (mo - 1))
  else if 2 ≤ y then some (y - 1, 12, 31)
  else none

/-- Next calendar day; `none` models the `OverflowError` past year 9999. -/
def next_day (y mo d : Nat) : Option (Nat × Nat × Nat) :=
  if d < days_in_month y mo then some (y, mo, d + 1)
  else if mo < 12 then some (y, mo + 1, 1)
  else if y < 9999 then some (y + 1, 1, 1)
  else none

/-- Python `dt.astimezone(UTC)` on an aware datetime: shift the wall clock
by the negated offset, rolling the calendar day when the shift crosses
midnight.  `none` models the `OverflowError` raised at the year-range
bounds.  The program only ever calls this with `tzinfo` set; on a naive
input we return the value unchanged (that call never happens). -/
def astimezone_utc (dt : DateTime) : Option DateTime :=
  match dt.tz with
  | none => some dt
  | some off =>
    let tot : Int := (dt.hour * 60 + dt.minute : Nat) - off
    if tot < 0 then
      match prev_day dt.year dt.month dt.day with
      | none => none
      | some (y, mo, d) =>
        some ⟨y, mo, d, (tot + 1440).toNat / 60, (tot + 1440).toNat % 60,
              dt.second, dt.microsecond, some 0⟩
    else if 1440 ≤ tot then
      match next_day dt.year dt.month dt.day with
      | none => none
      | some (y, mo, d) =>
        some ⟨y, mo, d, (tot - 1440).toNat / 60, (tot - 1440).toNat % 60,
              dt.second, dt.microsecond, some 0⟩
    else
      some ⟨dt.year, dt.month, dt.day, tot.toNat / 60, tot.toNat % 60,
            dt.second, dt.microsecond, some 0⟩

/-- Rendering of a fixed UTC offset as `±HH:MM` (Python `isoformat`). -/
def offset_chars (off : Int) : Str :=
  (if off < 0 then '-' else '+') :: nat_digits 2 (off.natAbs / 60) ++ ':' :: nat_digits 2 (off.natAbs % 60)

/-- Python `datetime.isoformat()`: `YYYY-MM-DDTHH:MM:SS[.ffffff][±HH:MM]`,
with the fractional part present exactly when the microsecond is nonzero
and the offset part present exactly when the datetime is aware. -/
def isoformat (dt : DateTime) : Str :=
  nat_digits 4 dt.year ++ '-' :: nat_digits 2 dt.month ++ '-' :: nat_digits 2 dt.day ++
  'T' :: nat_digits 2 dt.hour ++ ':' :: nat_digits 2 dt.minute ++ ':' :: nat_digits 2 dt.second ++
  (if dt.microsecond = 0 then [] else '.' :: nat_digits 6 dt.microsecond) ++
  (match dt.tz with
   | none => []
   | some off => offset_chars off)

/-- The literal `+00:00`. -/
def plus0000 : Str := strL "+00:00"

/-- The literal `Z`. -/
def zstr : Str := strL "Z"

/-- Embedding of `_to_rfc3339`: `None` maps to `None`; a naive datetime is
stamped as UTC; the result is converted to UTC and formatted, with the
trailing `+00:00` replaced by `Z`.  The outer `none` models the
`OverflowError` that `astimezone` can raise (never reached by the program,
which always passes UTC datetimes, but part of the function's behaviour). -/
def to_rfc3339 : Option DateTime → Option (Option Str)
  | none => some none
  | some dt =>
    let normalized := dt
    let normalized := if normalized.tz = none then with_utc0 normalized else normalized
    match astimezone_utc normalized with
    | none => none
    | some n => some (some (replace_all plus0000 zstr (isoformat n)))

/-- Final constructor check of the parser: mirrors the range validation the
`datetime` constructor performs on every component. -/
def mk_checked (y mo d h mi sec us : Nat) (tz : Option Int) : Option DateTime :=
  if date_ok y mo d ∧ h ≤ 23 ∧ mi ≤ 59 ∧ sec ≤ 59 ∧ us ≤ 999999 then
    some ⟨y, mo, d, h, mi, sec, us, tz⟩
  else none

/-- Parse `YYYY-MM-DD` from the front of `s`. -/
def parse_date_part (s : Str) : Option (Nat × Nat × Nat × Str) :=
  match read_n 4 s with
  | none => none
  | some (y, s) =>
    match expect_char '-' s with
    | none => none
    | some s =>
      match read_n 2 s with
      | none => none
      | some (mo, s) =>
        match expect_char '-' s with
        | none => none
        | some s =>
          match read_n 2 s with
          | none => none
          | some (d, s) => some (y, mo, d, s)

/-- Parse a fractional-second field of one to six digits, scaled to
microseconds (Python scales shorter fields the same way). -/
def parse_frac (s : Str) : Option (Nat × Str) :=
  let ds := s.takeWhile is_digit_c
  if ds.length = 0 ∨ 6 < ds.length then none
  else some (digits_val ds * 10 ^ (6 - ds.length), s.dropWhile is_digit_c)

/-- Parse a trailing UTC-offset suffix: `Z` or `±HH:MM`, with the
`datetime.timezone` bound of strictly less than 24 hours. -/
def parse_offset_part (s : Str) : Option (Int × Str) :=
  match s with
  | [] => none
  | c :: rest =>
    if c = 'Z' then some (0, rest)
    else if c = '+' ∨ c = '-' then
      match read_n 2 rest with
      | none => none
      | some (hh, s) =>
        match expect_char ':' s with
        | none => none
        | some s =>
          match read_n 2 s with
          | none => none
          | some (mm, s) =>
            if mm ≤ 59 ∧ hh * 60 + mm < 1440 then
              some ((if c = '-' then -(hh * 60 + mm : Int) else (hh * 60 + mm : Nat)), s)
            else none
    else none

/-- Continuation of the parser after the optional fractional field. -/
def after_frac (y mo d h mi sec us : Nat) (s : Str) : Option DateTime :=
  match s with
  | [] => mk_checked y mo d h mi sec us none
  | _ :: _ =>
    match parse_offset_part s with
    | some (off, []) => mk_checked y mo d h mi sec us (some off)
    | _ => none

/-- Continuation of the parser after the seconds field. -/
def after_sec (y mo d h mi sec : Nat) (s : Str) : Option DateTime :=
  match s with
  | '.' :: t =>
    (match parse_frac t with
     | none => none
     | some (us, s) => after_frac y mo d h mi sec us s)
  | ',' :: t =>
    (match parse_frac t with
     | none => none
     | some (us, s) => after_frac y mo d h mi sec us s)
  | _ => after_frac y mo d h mi sec 0 s

/-- Embedding of `datetime.fromisoformat` (Python 3.11) on the grammar the
program exercises: a date, optionally followed by a `T`- or
space-separated time `HH:MM[:SS[.f{1,6}]]`, optionally followed by a `Z`
or `±HH:MM` offset; every component is range-checked like the `datetime`
constructor.  `none` models `ValueError`. -/
def fromisoformat (s : Str) : Option DateTime :=
  match parse_date_part s with
  | none => none
  | some (y, mo, d, rest) =>
    match rest with
    | [] => mk_checked y mo d 0 0 0 0 none
    | sep :: t =>
      if sep = 'T' ∨ sep = ' ' then
        match read_n 2 t with
        | none => none
        | some (h, s) =>
          match expect_char ':' s with
          | none => none
          | some s =>
            match read_n 2 s with
            | none => none
            | some (mi, s) =>
              match s with
              | ':' :: t2 =>
                (match read_n 2 t2 with
                 | none => none
                 | some (sec, s2) => after_sec y mo d h mi sec s2)
              | _ => after_sec y mo d h mi 0 s
      else none

/-- Embedding of `_parse_rfc3339_timestamp`.  The result is layered:
the outer `none` models the `OverflowError` escaping the
`parsed.astimezone(UTC)` call (which sits outside the `try`); the inner
`none` is the function's own absence value, returned for falsy input and
for a `ValueError` from `fromisoformat`. -/
def parse_rfc3339_timestamp : Option Str → Option (Option DateTime)
  | none => some none
  | some value =>
    if value = [] then some none
    else
      let normalized := replace_all zstr plus0000 (strip_ws value)
      match fromisoformat normalized with
      | none => some none
      | some parsed =>
        if parsed.tz = none then some (some (with_utc0 parsed))
        else
          match astimezone_utc parsed with
          | none => none
          | some p => some (some p)

/-- JSON values: the payloads the Delivery Adapter hands to the core are
decoded JSON, so this is the exact domain of `process_event`'s `event`
argument and of message attributes. -/
inductive Value where
  | str (s : Str)
  | num (d : Dec)
  | bool (b : Bool)
  | null
  | arr (l : List Value)
  | obj (l : List (Str × Value))

/-- Inbound event: a JSON object, i.e. an association list (keys unique). -/
abbrev Event := List (Str × Value)

/-- Dictionary lookup (`event.get(k)`). -/
def lookup_key (e : Event) (k : Str) : Option Value :=
  (e.find? (fun kv => kv.1 == k)).map Prod.snd

/-- JSON string escaping (quote and backslash; the control-character cases
do not occur in the payloads the claims touch). -/
def json_escape_char (c : Char) : Str :=
  if c = '"' ∨ c = '\\' then ['\\', c] else [c]

/-- JSON rendering of a string. -/
def json_str (s : Str) : Str :=
  '"' :: (s.map json_escape_char).flatten ++ ['"']

/-- Decimal digits of a natural number. -/
def nat_str (n : Nat) : Str := Nat.toDigits 10 n

/-- Decimal rendering of an integer. -/
def int_str (i : Int) : Str :=
  if i < 0 then '-' :: nat_str i.natAbs else nat_str i.natAbs

/-- Rendering of an exact decimal.  Python's shortest-round-trip float
`repr` is simplified to mantissa/exponent form; the rendering only feeds
the opaque diagnostic `raw_payload` strings, which no claim inspects. -/
def dec_repr (d : Dec) : Str :=
  if d.e = 0 then int_str d.m
  else int_str d.m ++ 'e' :: '-' :: nat_str d.e

/-- Left brace and right brace characters (written via code points). -/
def lbrace : Char := Char.ofNat 123

def rbrace : Char := Char.ofNat 125

/-- Join with a separator (`", ".join`). -/
def join_sep (sep : Str) : List Str → Str
  | [] => []
  | [x] => x
  | x :: xs => x ++ sep ++ join_sep sep xs

mutual

/-- Embedding of `json.dumps` on a JSON value (default separators). -/
def dumps_value : Value → Str
  | .str s => json_str s
  | .num d => dec_repr d
  | .bool b => if b then strL "true" else strL "false"
  | .null => strL "null"
  | .arr l => '[' :: join_sep (strL ", ") (dumps_list l) ++ [']']
  | .obj l => lbrace :: join_sep (strL ", ") (dumps_members l) ++ [rbrace]

/-- Renders each element of a JSON array. -/
def dumps_list : List Value → List Str
  | [] => []
  | v :: r => dumps_value v :: dumps_list r

/-- Renders each `"key": value` member of a JSON object. -/
def dumps_members : List (Str × Value) → List Str
  | [] => []
  | (k, v) :: r => (json_str k ++ ':' :: ' ' :: dumps_value v) :: dumps_members r

end

/-- Embedding of `json.dumps` applied to a JSON object (dict). -/
def dumps_obj (e : List (Str × Value)) : Str := dumps_value (.obj e)

/-- Python `str()` of a decoded JSON value, used only on the unvalidated
`event_time` of an invalid record (line 215); any non-string rendering
fails the subsequent timestamp parse just as in Python. -/
def py_str_of (v : Value) : Str :=
  match v with
  | .str s => s
  | .num d => dec_repr d
  | .bool b => if b then strL "True" else strL "False"
  | .null => strL "None"
  | v => dumps_value v

/-- Hexadecimal digit value. -/
def hex_val (c : Char) : Option Nat :=
  if 48 ≤ c.toNat ∧ c.toNat ≤ 57 then some (c.toNat - 48)
  else if 97 ≤ c.toNat ∧ c.toNat ≤ 102 then some (c.toNat - 87)
  else if 65 ≤ c.toNat ∧ c.toNat ≤ 70 then some (c.toNat - 55)
  else none

/-- Accumulate the value of a hex-digit string (`int(s, 16)`). -/
def hex_digits_val : Nat → Str → Option Nat
  | acc, [] => some acc
  | acc, c :: r =>
    match hex_val c with
    | none => none
    | some v => hex_digits_val (acc * 16 + v) r

/-- Strip leading and trailing brace characters (`hex.strip(\x27{}\x27)`). -/
def strip_braces (s : Str) : Str :=
  let p := fun c => c = lbrace || c = rbrace
  ((s.dropWhile p).reverse.dropWhile p).reverse

/-- Embedding of `uuid.UUID(hex=s)` as used by the pydantic `UUID` field:
drop `urn:` and `uuid:` markers, strip braces, drop hyphens, and require
exactly 32 hexadecimal digits. -/
def uuid_parse (s : Str) : Option Nat :=
  let h := replace_all (strL "urn:") [] s
  let h := replace_all (strL "uuid:") [] h
  let h := strip_braces h
  let h := replace_all (strL "-") [] h
  if h.length = 32 then hex_digits_val 0 h else none

/-- Canonical `str(uuid.UUID(...))`: 32 lowercase hex digits grouped
8-4-4-4-12. -/
def uuid_str (u : Nat) : Str :=
  let ds := Nat.toDigits 16 u
  let h := List.replicate (32 - ds.length) '0' ++ ds
  h.take 8 ++ '-' :: (h.drop 8).take 4 ++ '-' :: (h.drop 12).take 4 ++
    '-' :: (h.drop 16).take 4 ++ '-' :: h.drop 20

/-- Embedding of Python `float(str)` on finite decimal/scientific literals
(`inf`/`nan` spellings and underscores are not exercised by the program's
data and are treated as unparsable). -/
def parse_float (s0 : Str) : Option Dec :=
  let s := strip_ws s0
  let (neg, s) :=
    match s with
    | '+' :: r => (false, r)
    | '-' :: r => (true, r)
    | s => (false, s)
  let ip := s.takeWhile is_digit_c
  let s1 := s.dropWhile is_digit_c
  let (fd, s2) :=
    match s1 with
    | '.' :: r => (r.takeWhile is_digit_c, r.dropWhile is_digit_c)
    | s1 => ([], s1)
  if ip.length = 0 ∧ fd.length = 0 then none
  else
    let mant : Int := (digits_val (ip ++ fd) : Nat)
    let mant := if neg then -mant else mant
    let scale := fd.length
    match s2 with
    | [] => some ⟨mant, scale⟩
    | c :: r =>
      if c = 'e' ∨ c = 'E' then
        let (eneg, r) :=
          match r with
          | '+' :: r2 => (false, r2)
          | '-' :: r2 => (true, r2)
          | r => (false, r)
        let ed := r.takeWhile is_digit_c
        if ed.length = 0 ∨ (r.dropWhile is_digit_c).length ≠ 0 then none
        else
          let ex : Int := if eneg then -(digits_val ed : Int) else (digits_val ed : Nat)
          let net : Int := ex - (scale : Nat)
          if 0 ≤ net then some ⟨mant * (10 : Int) ^ net.toNat, 0⟩
          else some ⟨mant, net.natAbs⟩
      else none

/-- Hinnant's `civil_from_days`: Gregorian date of a day count from the
Unix epoch (used for numeric `event_time` payloads, which pydantic reads
as epoch seconds). -/
def civil_from_days (z0 : Int) : Int × Int × Int :=
  let z := z0 + 719468
  let era := z / 146097
  let doe := z - era * 146097
  let yoe := (doe - doe / 1460 + doe / 36524 - doe / 146096) / 365
  let y := yoe + era * 400
  let doy := doe - (365 * yoe + yoe / 4 - yoe / 100)
  let mp := (5 * doy + 2) / 153
  let d := doy - (153 * mp + 2) / 5 + 1
  let m := mp + (if mp < 10 then 3 else -9)
  (y + (if m ≤ 2 then 1 else 0), m, d)

/-- Pydantic's lax conversion of a JSON number to a datetime: seconds since
the Unix epoch, yielding a UTC-aware datetime; out-of-range years are a
validation failure. -/
def epoch_datetime (x : Dec) : Option DateTime :=
  let micros : Int := (x.m * 1000000) / (10 : Int) ^ x.e
  let sec := micros / 1000000
  let us := micros % 1000000
  let days := sec / 86400
  let sod := sec % 86400
  let (y, m, d) := civil_from_days days
  if 1 ≤ y ∧ y ≤ 9999 then
    some ⟨y.toNat, m.toNat, d.toNat, (sod / 3600).toNat, (sod / 60 % 60).toNat,
          (sod % 60).toNat, us.toNat, some 0⟩
  else none

/-- Canonical event types (`class EventType(str, Enum)`). -/
inductive EventType where
  | view | add_to_cart | remove_from_cart | checkout | purchase | search
deriving DecidableEq

/-- The `.value` string of an `EventType` member. -/
def EventType.value : EventType → Str
  | .view => strL "view"
  | .add_to_cart => strL "add_to_cart"
  | .remove_from_cart => strL "remove_from_cart"
  | .checkout => strL "checkout"
  | .purchase => strL "purchase"
  | .search => strL "search"

/-- Case-sensitive membership test used by enum validation. -/
def event_type_of (s : Str) : Option EventType :=
  if s = strL "view" then some .view
  else if s = strL "add_to_cart" then some .add_to_cart
  else if s = strL "remove_from_cart" then some .remove_from_cart
  else if s = strL "checkout" then some .checkout
  else if s = strL "purchase" then some .purchase
  else if s = strL "search" then some .search
  else none

/-- Allowed device types (`class DeviceType(str, Enum)`). -/
inductive DeviceType where
  | mobile | desktop | tablet
deriving DecidableEq

/-- The `.value` string of a `DeviceType` member. -/
def DeviceType.value : DeviceType → Str
  | .mobile => strL "mobile"
  | .desktop => strL "desktop"
  | .tablet => strL "tablet"

/-- Case-sensitive membership test used by enum validation. -/
def device_type_of (s : Str) : Option DeviceType :=
  if s = strL "mobile" then some .mobile
  else if s = strL "desktop" then some .desktop
  else if s = strL "tablet" then some .tablet
  else none

/-- One field-level validation defect: the field path and the defect kind
(the `loc` and `type` entries of a pydantic error dict). -/
structure Defect where
  loc : Str
  kind : Str
deriving DecidableEq

/-- Error list of one field result (empty when the field validated). -/
def errs {α : Type} : Except (List Defect) α → List Defect
  | .ok _ => []
  | .error ds => ds

/-- Field-name constants of the schema, in declaration order. -/
def key_event_id : Str := strL "event_id"

def key_user_id : Str := strL "user_id"

def key_event_type : Str := strL "event_type"

def key_product_id : Str := strL "product_id"

def key_category : Str := strL "category"

def key_price : Str := strL "price"

def key_device : Str := strL "device"

def key_city : Str := strL "city"

def key_event_time : Str := strL "event_time"

/-- The schema's field names in pydantic declaration order. -/
def field_names : List Str :=
  [key_event_id, key_user_id, key_event_type, key_product_id, key_category,
   key_price, key_device, key_city, key_event_time]

/-- Validated event (`class EcommerceEvent(BaseModel)`).  The `event_id` is
the 128-bit UUID integer.  Extra payload keys are tolerated by the model
(`extra="allow"`) and retained only through the raw payload, so they do
not appear in the typed view. -/
structure EcommerceEvent where
  event_id : Nat
  user_id : Str
  event_type : EventType
  product_id : Str
  category : Str
  price : Dec
  device : DeviceType
  city : Str
  event_time : DateTime
deriving DecidableEq

/-- Validate the `event_id` field: a string parsing as a UUID. -/
def v_event_id : Option Value → Except (List Defect) Nat
  | none => .error [⟨key_event_id, strL "missing"⟩]
  | some (.str s) =>
    (match uuid_parse s with
     | some u => .ok u
     | none => .error [⟨key_event_id, strL "uuid_parsing"⟩])
  | some _ => .error [⟨key_event_id, strL "uuid_type"⟩]

/-- Validate a constrained string field (`min_length=1, max_length=128`). -/
def v_str_field (key : Str) : Option Value → Except (List Defect) Str
  | none => .error [⟨key, strL "missing"⟩]
  | some (.str s) =>
    if s.length = 0 then .error [⟨key, strL "string_too_short"⟩]
    else if 128 < s.length then .error [⟨key, strL "string_too_long"⟩]
    else .ok s
  | some _ => .error [⟨key, strL "string_type"⟩]

/-- Validate the `event_type` enum field. -/
def v_event_type : Option Value → Except (List Defect) EventType
  | none => .error [⟨key_event_type, strL "missing"⟩]
  | some (.str s) =>
    (match event_type_of s with
     | some t => .ok t
     | none => .error [⟨key_event_type, strL "enum"⟩])
  | some _ => .error [⟨key_event_type, strL "enum"⟩]

/-- Validate the `device` enum field. -/
def v_device : Option Value → Except (List Defect) DeviceType
  | none => .error [⟨key_device, strL "missing"⟩]
  | some (.str s) =>
    (match device_type_of s with
     | some t => .ok t
     | none => .error [⟨key_device, strL "enum"⟩])
  | some _ => .error [⟨key_device, strL "enum"⟩]

/-- Validate the `price` field (`float = Field(ge=0)`; lax mode accepts
numbers and numeric strings). -/
def v_price : Option Value → Except (List Defect) Dec
  | none => .error [⟨key_price, strL "missing"⟩]
  | some (.num q) =>
    if Dec.le ⟨0, 0⟩ q then .ok q else .error [⟨key_price, strL "greater_than_equal"⟩]
  | some (.str s) =>
    (match parse_float s with
     | some q =>
       if Dec.le ⟨0, 0⟩ q then .ok q else .error [⟨key_price, strL "greater_than_equal"⟩]
     | none => .error [⟨key_price, strL "float_parsing"⟩])
  | some _ => .error [⟨key_price, strL "float_type"⟩]

/-- Validate the `event_time` datetime field (lax mode accepts RFC3339-ish
strings and numeric epoch seconds). -/
def v_event_time : Option Value → Except (List Defect) DateTime
  | none => .error [⟨key_event_time, strL "missing"⟩]
  | some (.str s) =>
    (match fromisoformat s with
     | some d => .ok d
     | none => .error [⟨key_event_time, strL "datetime_parsing"⟩])
  | some (.num x) =>
    (match epoch_datetime x with
     | some d => .ok d
     | none => .error [⟨key_event_time, strL "datetime_parsing"⟩])
  | some _ => .error [⟨key_event_time, strL "datetime_type"⟩]

/-- Embedding of `EcommerceEvent.model_validate`: each declared field is
validated independently against its own payload entry, and on failure the
defects of all failing fields are reported in declaration order (pydantic
collects per-field errors rather than stopping at the first).  Extra keys
are permitted (`extra="allow"`) and contribute nothing. -/
def model_validate (e : Event) : Except (List Defect) EcommerceEvent :=
  let r1 := v_event_id (lookup_key e key_event_id)
  let r2 := v_str_field key_user_id (lookup_key e key_user_id)
  let r3 := v_event_type (lookup_key e key_event_type)
  let r4 := v_str_field key_product_id (lookup_key e key_product_id)
  let r5 := v_str_field key_category (lookup_key e key_category)
  let r6 := v_price (lookup_key e key_price)
  let r7 := v_device (lookup_key e key_device)
  let r8 := v_str_field key_city (lookup_key e key_city)
  let r9 := v_event_time (lookup_key e key_event_time)
  match r1, r2, r3, r4, r5, r6, r7, r8, r9 with
  | .ok a1, .ok a2, .ok a3, .ok a4, .ok a5, .ok a6, .ok a7, .ok a8, .ok a9 =>
    .ok ⟨a1, a2, a3, a4, a5, a6, a7, a8, a9⟩
  | _, _, _, _, _, _, _, _, _ =>
    .error (errs r1 ++ errs r2 ++ errs r3 ++ errs r4 ++ errs r5 ++
            errs r6 ++ errs r7 ++ errs r8 ++ errs r9)

/-- Per-field defect function: the defects field `key` contributes given
only its own looked-up payload entry.  Used to state that validation acts
independently per field. -/
def field_errs (key : Str) (v : Option Value) : List Defect :=
  if key = key_event_id then errs (v_event_id v)
  else if key = key_user_id then errs (v_str_field key_user_id v)
  else if key = key_event_type then errs (v_event_type v)
  else if key = key_product_id then errs (v_str_field key_product_id v)
  else if key = key_category then errs (v_str_field key_category v)
  else if key = key_price then errs (v_price v)
  else if key = key_device then errs (v_device v)
  else if key = key_city then errs (v_str_field key_city v)
  else if key = key_event_time then errs (v_event_time v)
  else []

/-- Identifies a BigQuery table by dataset + table id (`BigQueryTarget`). -/
structure BigQueryTarget where
  dataset_id : Str
  table_id : Str
deriving DecidableEq

/-- Runtime configuration for dataset/table targets (`PipelineConfig`). -/
structure PipelineConfig where
  dataset_id : Str
  raw_table_id : Str
  processed_table_id : Str
  error_table_id : Str
  source : Str

/-- The RAW-table row built at lines 221-231 of `processor.py`. -/
structure RawRow where
  message_id : Option Str
  event_id : Option Str
  publish_time : Option Str
  ingestion_time : Option Str
  raw_payload : Str
  source : Str
  attributes : Str
  is_valid : Bool
  validation_errors : Option Str

/-- The PROCESSED-table row built at lines 255-266 of `processor.py`. -/
structure ProcessedRow where
  event_id : Option Str
  user_id : Str
  event_type : Str
  product_id : Str
  category : Str
  price : Dec
  device : Str
  city : Str
  event_time : Option Str
  ingestion_time : Option Str

/-- The ERROR-table row built by `_insert_error_event`. -/
structure ErrorRow where
  message_id : Option Str
  event_id : Option Str
  publish_time : Option Str
  ingestion_time : Option Str
  stage : Str
  error_message : Str
  error_details : Option Str
  raw_payload : Str
  attributes : Str
  source : Str

/-- A row destined for one of the three sinks. -/
inductive RowData where
  | raw (r : RawRow)
  | processed (r : ProcessedRow)
  | error (r : ErrorRow)

/-- One call of `BigQueryWriter.insert_row`: the target table, the row and
the `insert_id` argument. -/
structure WriteAttempt where
  target : BigQueryTarget
  row : RowData
  insert_id : Option Str

instance : Inhabited WriteAttempt :=
  ⟨⟨⟨[], []⟩, .raw ⟨none, none, none, none, [], [], [], true, none⟩, none⟩⟩

/-- Exceptions escaping `process_event`: a `RuntimeError` raised by the
sink writer (carrying `str(exc)`), or the `OverflowError` escaping a
`datetime.astimezone` call. -/
inductive PyExc where
  | runtime (msg : Str)
  | overflow
deriving DecidableEq

/-- Python `str(exc)`. -/
def str_of_exc : PyExc → Str
  | .runtime m => m
  | .overflow => strL "date value out of range"

/-- The sink writer boundary: given the index of the attempt within the
call and the attempt itself, either succeed (`none`) or raise (`some e`).
Quantifying theorems over all such functions covers every pattern of
selective sink failure. -/
def SinkWriter := Nat → WriteAttempt → Option PyExc

/-- Python `x or y` on an optional string (`None` and the empty string are
falsy). -/
def py_or (a b : Option Str) : Option Str :=
  match a with
  | some s => if s = [] then b else some s
  | none => b

/-- Message attributes (`attributes or {}` at the call sites). -/
abbrev Attrs := List (Str × Value)

/-- Row built by `_insert_error_event` (lines 157-168).  `none` models an
`OverflowError` escaping one of its `_to_rfc3339` calls — unreachable on
the datetimes the program passes, but part of the embedded control flow. -/
def insert_error_row (message_id : Option Str) (publish_time : Option DateTime)
    (ingestion_time : DateTime) (event_id : Option Str) (stage : Str)
    (error_message : Str) (error_details : Option (List Defect))
    (raw_event : Event) (attributes : Option Attrs) (config : PipelineConfig) :
    Option ErrorRow :=
  match to_rfc3339 publish_time with
  | none => none
  | some pt =>
    match to_rfc3339 (some ingestion_time) with
    | none => none
    | some it =>
      some
        { message_id := message_id
          event_id := event_id
          publish_time := pt
          ingestion_time := it
          stage := stage
          error_message := error_message
          error_details := error_details.map (fun ds => dumps_value (.arr (ds.map (fun d => .obj [(strL "loc", .arr [.str d.loc]), (strL "type", .str d.kind)]))))
          raw_payload := dumps_obj raw_event
          attributes := dumps_obj (attributes.getD [])
          source := config.source }

/-- The raw-table row of lines 221-231.  `none` models an `OverflowError`
escaping `_to_rfc3339` during row construction (unreachable on the
datetimes the program passes). -/
def build_raw_row (message_id : Option Str) (event_id_str : Option Str)
    (publish_dt : Option DateTime) (ingestion_time : DateTime) (event : Event)
    (attributes : Option Attrs) (is_valid : Bool)
    (validation_errors : Option (List Defect)) (config : PipelineConfig) :
    Option RawRow :=
  match to_rfc3339 publish_dt with
  | none => none
  | some pt =>
    match to_rfc3339 (some ingestion_time) with
    | none => none
    | some it =>
      some
        { message_id := message_id
          event_id := event_id_str
          publish_time := pt
          ingestion_time := it
          raw_payload := dumps_obj event
          source := config.source
          attributes := dumps_obj (attributes.getD [])
          is_valid := is_valid
          validation_errors :=
            match validation_errors with
            | some ds =>
              if ds = [] then none
              else some (dumps_value (.arr (ds.map (fun d => .obj [(strL "loc", .arr [.str d.loc]), (strL "type", .str d.kind)]))))
            | none => none }

/-- Line 212 of `processor.py` as a function of the datetime: an aware
value goes through `astimezone(UTC)` (which can raise `OverflowError`,
modelled by `none`), a naive one is stamped as already UTC. -/
def norm_utc (dt : DateTime) : Option DateTime :=
  if dt.tz.isSome then astimezone_utc dt else some (with_utc0 dt)

/-- Two datetimes denote the same UTC instant exactly when the program's
own UTC normalisation maps them to the same value. -/
def same_instant (a b : DateTime) : Prop := norm_utc a = norm_utc b

/-- Line 212 / lines 214-216: the UTC event-time for the processed row.
For a validated event, an aware `event_time` goes through `astimezone`
(which can overflow) and a naive one is stamped UTC; for an invalid event
the unvalidated payload entry is stringified and re-parsed best-effort
(also able to overflow inside `_parse_rfc3339_timestamp`). -/
def event_time_dtx (validated : Option EcommerceEvent) (event : Event) :
    Option (Option DateTime) :=
  match validated with
  | some v =>
    (match norm_utc v.event_time with
     | none => none
     | some d => some (some d))
  | none =>
    match lookup_key event key_event_time with
    | none => parse_rfc3339_timestamp none
    | some .null => parse_rfc3339_timestamp none
    | some v => parse_rfc3339_timestamp (some (py_str_of v))

/-- The processed-table row of lines 255-266.  `none` models an
`OverflowError` escaping `_to_rfc3339 (event_time_dt)` (unreachable: the
event-time has already been normalised to UTC). -/
def build_processed_row (v : EcommerceEvent) (event_id_str : Option Str)
    (event_time_dt : Option DateTime) (ingestion_time : DateTime) :
    Option ProcessedRow :=
  match to_rfc3339 event_time_dt with
  | none => none
  | some et =>
    match to_rfc3339 (some ingestion_time) with
    | none => none
    | some it =>
      some
        { event_id := event_id_str
          user_id := v.user_id
          event_type := v.event_type.value
          product_id := v.product_id
          category := v.category
          price := v.price
          device := v.device.value
          city := v.city
          event_time := et
          ingestion_time := it }

/-- Embedding of `process_event`.  Returns the ordered list of sink-write
attempts together with the exception (if any) escaping the call; `none`
as the second component means the function returned (the caller acks). -/
def process_event (event : Event) (message_id : Option Str)
    (publish_time : Option Str) (attributes : Option Attrs) (writer : SinkWriter)
    (config : PipelineConfig) (ingestion_time : DateTime) :
    List WriteAttempt × Option PyExc :=
  match parse_rfc3339_timestamp publish_time with
  | none => ([], some .overflow)
  | some publish_dt =>
    let vres := model_validate event
    let validated : Option EcommerceEvent := vres.toOption
    let validation_errors : Option (List Defect) :=
      match vres with
      | .ok _ => none
      | .error ds => some ds
    let is_valid : Bool := validated.isSome
    let event_id_str : Option Str := validated.map (fun v => uuid_str v.event_id)
    match event_time_dtx validated event with
    | none => ([], some .overflow)
    | some event_time_dt =>
      match build_raw_row message_id event_id_str publish_dt ingestion_time event
          attributes is_valid validation_errors config with
      | none => ([], some .overflow)
      | some raw_row =>
        let insert_id := py_or event_id_str message_id
        let a0 : WriteAttempt :=
          ⟨⟨config.dataset_id, config.raw_table_id⟩, .raw raw_row, insert_id⟩
        match writer 0 a0 with
        | some e => ([a0], some e)
        | none =>
          match validated with
          | none =>
            -- lines 238-253: invalid events go to the error table; note the
            -- absence of any local exception handling around this write.
            match insert_error_row message_id publish_dt ingestion_time
                event_id_str (strL "validation") (strL "Schema validation failed")
                validation_errors event attributes config with
            | none => ([a0], some .overflow)
            | some err_row =>
              let a1 : WriteAttempt :=
                ⟨⟨config.dataset_id, config.error_table_id⟩, .error err_row,
                 py_or event_id_str message_id⟩
              match writer 1 a1 with
              | some e => ([a0, a1], some e)
              | none => ([a0, a1], none)
          | some v =>
            match build_processed_row v event_id_str event_time_dt ingestion_time with
            | none => ([a0], some .overflow)
            | some processed_row =>
              let a1 : WriteAttempt :=
                ⟨⟨config.dataset_id, config.processed_table_id⟩,
                 .processed processed_row, insert_id⟩
              match writer 1 a1 with
              | none => ([a0, a1], none)
              | some exc1 =>
                -- lines 268-287: best-effort error write, then `finally: raise`.
                -- When the error write itself raises, Python's bare `raise`
                -- inside `finally` re-raises that newer exception, so the
                -- secondary failure is what escapes.
                match insert_error_row message_id publish_dt ingestion_time
                    event_id_str (strL "processed_insert") (str_of_exc exc1)
                    none event attributes config with
                | none => ([a0, a1], some .overflow)
                | some err_row =>
                  let a2 : WriteAttempt :=
                    ⟨⟨config.dataset_id, config.error_table_id⟩, .error err_row,
                     py_or event_id_str message_id⟩
                  match writer 2 a2 with
                  | none => ([a0, a1, a2], some exc1)
                  | some exc2 => ([a0, a1, a2], some exc2)

/-- Classification of a write attempt by destination row shape and, for
error rows, by stage. -/
inductive AttKind where
  | rawk | prock | errvk | errpik | errok
deriving DecidableEq

/-- The stage string of the validation-error path. -/
def stage_validation : Str := strL "validation"

/-- The stage string of the processed-insert failure path. -/
def stage_processed_insert : Str := strL "processed_insert"

/-- Classify one write attempt. -/
def att_kind (a : WriteAttempt) : AttKind :=
  match a.row with
  | .raw _ => .rawk
  | .processed _ => .prock
  | .error r =>
    if r.stage = stage_validation then .errvk
    else if r.stage = stage_processed_insert then .errpik
    else .errok

/-- The stage of an attempt when it targets the error table. -/
def stage_of (a : WriteAttempt) : Option Str :=
  match a.row with
  | .error r => some r.stage
  | _ => none

/-- Whether an attempt writes a raw row. -/
def is_raw_att (a : WriteAttempt) : Bool :=
  match a.row with
  | .raw _ => true
  | _ => false

/-- The timestamp-valued fields a row carries. -/
def row_time_fields : RowData → List (Option Str)
  | .raw r => [r.publish_time, r.ingestion_time]
  | .processed r => [r.event_time, r.ingestion_time]
  | .error r => [r.publish_time, r.ingestion_time]

/-- The `publish_time` field of a row (`none` for processed rows, which
have no such field). -/
def row_publish_time : RowData → Option Str
  | .raw r => r.publish_time
  | .processed _ => none
  | .error r => r.publish_time

/-- Absent, or a string ending in a literal `Z`. -/
def none_or_ends_z : Option Str → Bool
  | none => true
  | some s => s.getLast? = some 'Z'

/-- The per-call idempotency key the amended claim C1 describes: the
canonical string of the validated event's UUID when validation succeeded,
else the transport `message_id`. -/
def derived_key (event : Event) (message_id : Option Str) : Option Str :=
  py_or ((model_validate event).toOption.map (fun v => uuid_str v.event_id)) message_id

/-- Concrete configuration used in witnesses and counterexamples. -/
def cfg0 : PipelineConfig :=
  ⟨strL "ecommerce_streaming", strL "ecommerce_raw_events",
   strL "ecommerce_processed_events", strL "ecommerce_error_events", strL "pubsub"⟩

/-- Concrete UTC ingestion instant used in witnesses. -/
def ing0 : DateTime := ⟨2024, 5, 1, 12, 0, 0, 0, some 0⟩

/-- Always-succeeding sink writer. -/
def ok_writer : SinkWriter := fun _ _ => none

/-- Sink writer failing exactly the attempt with the given index. -/
def fail_on (i : Nat) (m : String) : SinkWriter :=
  fun j _ => if j = i then some (.runtime (strL m)) else none

/-- Sink writer failing both the processed write (attempt 1) and the
subsequent error write (attempt 2), with distinguishable messages. -/
def fail_both : SinkWriter :=
  fun j _ =>
    if j = 1 then some (.runtime (strL "processed insert failed"))
    else if j = 2 then some (.runtime (strL "error sink down")) else none

/-- A canonical UUID string. -/
def uuid0 : Str := strL "123e4567-e89b-12d3-a456-426614174000"

/-- The specification's own valid scenario payload (§8). -/
def valid_event0 : Event :=
  [(key_event_id, .str uuid0), (key_user_id, .str (strL "U1")),
   (key_event_type, .str (strL "purchase")), (key_product_id, .str (strL "P1")),
   (key_category, .str (strL "electronics")), (key_price, .num ⟨125, 1⟩),
   (key_device, .str (strL "mobile")), (key_city, .str (strL "Lagos")),
   (key_event_time, .str (strL "2024-01-01T00:00:00Z"))]

/-- An invalid payload that nonetheless carries a parseable `event_id`
(the price violates `ge=0` and every other mandatory field is absent). -/
def bad_price_event0 : Event :=
  [(key_event_id, .str uuid0), (key_price, .num ⟨-5, 0⟩)]

/-- A publish time that parses but whose UTC conversion overflows the
representable year range. -/
def overflow_ts : Str := strL "0001-01-01T00:00:00+01:00"

/-- The validated record of `valid_event0`. -/
def valid_model0 : EcommerceEvent :=
  ⟨0x123e4567e89b12d3a456426614174000, strL "U1", .purchase, strL "P1",
   strL "electronics", ⟨125, 1⟩, .mobile, strL "Lagos",
   ⟨2024, 1, 1, 0, 0, 0, 0, some 0⟩⟩

/-- The offset-free part of `isoformat`: date, separator, time and the
optional fractional-second field. -/
def iso_core (dt : DateTime) : Str :=
  nat_digits 4 dt.year ++ '-' :: nat_digits 2 dt.month ++ '-' :: nat_digits 2 dt.day ++
  'T' :: nat_digits 2 dt.hour ++ ':' :: nat_digits 2 dt.minute ++ ':' :: nat_digits 2 dt.second ++
  (if dt.microsecond = 0 then [] else '.' :: nat_digits 6 dt.microsecond)

theorem digit_char_spec : ∀ d, d < 10 →
    is_digit_c (digit_char d) = true ∧ char_val (digit_char d) = d := by
  decide

theorem nat_digits_length (k n : Nat) : (nat_digits k n).length = k := by
  induction k generalizing n with
  | zero => rfl
  | succ k ih => simp [nat_digits, ih]

theorem nat_digits_digits (k n : Nat) :
    ∀ c ∈ nat_digits k n, is_digit_c c = true := by
  induction k generalizing n with
  | zero => intro c hc; simp [nat_digits] at hc
  | succ k ih =>
    intro c hc
    simp only [nat_digits, List.mem_cons] at hc
    rcases hc with h | h
    · subst h; exact (digit_char_spec _ (Nat.mod_lt _ (by omega))).1
    · exact ih n c h

theorem read_n_aux_digits (k : Nat) :
    ∀ acc n rest, read_n_aux k acc (nat_digits k n ++ rest) =
      some (acc * 10 ^ k + n % 10 ^ k, rest) := by
  induction k with
  | zero => intro acc n rest; simp [nat_digits, read_n_aux, Nat.mod_one]
  | succ k ih =>
    intro acc n rest
    have hd : n / 10 ^ k % 10 < 10 := Nat.mod_lt _ (by omega)
    obtain ⟨h1, h2⟩ := digit_char_spec _ hd
    simp only [nat_digits, List.cons_append, read_n_aux, h1, if_true, h2,
      List.append_eq]
    rw [ih]
    have harith : (acc * 10 + n / 10 ^ k % 10) * 10 ^ k + n % 10 ^ k =
        acc * 10 ^ (k + 1) + n % 10 ^ (k + 1) := by
      have hm : n % 10 ^ (k + 1) = n % 10 ^ k + 10 ^ k * (n / 10 ^ k % 10) := by
        rw [pow_succ]; exact Nat.mod_mul
      rw [hm, pow_succ]; ring
    rw [harith]

theorem read_n_digits (k n : Nat) (rest : Str) (h : n < 10 ^ k) :
    read_n k (nat_digits k n ++ rest) = some (n, rest) := by
  unfold read_n
  rw [read_n_aux_digits, Nat.mod_eq_of_lt h]
  simp

theorem digits_val_nat_digits (k : Nat) :
    ∀ n, digits_val (nat_digits k n) = n % 10 ^ k := by
  have aux : ∀ k acc n, (nat_digits k n).foldl (fun a c => a * 10 + char_val c) acc =
      acc * 10 ^ k + n % 10 ^ k := by
    intro k
    induction k with
    | zero => intro acc n; simp [nat_digits, Nat.mod_one]
    | succ k ih =>
      intro acc n
      have hd : n / 10 ^ k % 10 < 10 := Nat.mod_lt _ (by omega)
      obtain ⟨_, h2⟩ := digit_char_spec _ hd
      simp only [nat_digits, List.foldl_cons, h2]
      rw [ih]
      have hm : n % 10 ^ (k + 1) = n % 10 ^ k + 10 ^ k * (n / 10 ^ k % 10) := by
        rw [pow_succ]; exact Nat.mod_mul
      rw [hm, pow_succ]; ring
  intro n
  have := aux k 0 n
  simpa [digits_val] using this

theorem expect_char_cons (c : Char) (r : Str) : expect_char c (c :: r) = some r := by
  simp [expect_char]

theorem takeWhile_append_stop (p : Char → Bool) (l r : Str)
    (hl : ∀ c ∈ l, p c = true) (hr : ∀ c ∈ r.take 1, p c = false) :
    (l ++ r).takeWhile p = l ∧ (l ++ r).dropWhile p = r := by
  induction l with
  | nil =>
    simp only [List.nil_append]
    cases r with
    | nil => simp
    | cons c rest =>
      have := hr c (by simp)
      simp [List.takeWhile_cons, List.dropWhile_cons, this]
  | cons c l ih =>
    have hc := hl c (by simp)
    have ihr := ih (fun x hx => hl x (by simp [hx]))
    simp [List.takeWhile_cons, List.dropWhile_cons, hc, ihr.1, ihr.2]

theorem replace_all_fuel_nil (pat rep : Str) (fuel : Nat) :
    replace_all_fuel pat rep fuel [] = [] := by
  cases fuel <;> rfl

theorem replace_all_fuel_tail (pat rep : Str) (p0 : Char) (pt : Str)
    (hpat : pat = p0 :: pt) :
    ∀ l fuel, (l ++ pat).length ≤ fuel → (∀ c ∈ l, c ≠ p0) →
      replace_all_fuel pat rep fuel (l ++ pat) = l ++ rep := by
  intro l
  induction l with
  | nil =>
    intro fuel hfuel _
    subst hpat
    simp only [List.nil_append] at hfuel ⊢
    cases fuel with
    | zero => simp at hfuel
    | succ f =>
      have hpre : (p0 :: pt).isPrefixOf (p0 :: pt) = true := by
        simp [List.isPrefixOf_iff_prefix]
      simp only [replace_all_fuel, hpre, if_true]
      rw [List.drop_length (p0 :: pt), replace_all_fuel_nil, List.append_nil]
  | cons c l ih =>
    intro fuel hfuel hl
    have hc : c ≠ p0 := hl c (by simp)
    cases fuel with
    | zero => simp at hfuel
    | succ f =>
      have hnp : pat.isPrefixOf (c :: (l ++ pat)) = false := by
        subst hpat
        simp [List.isPrefixOf, beq_iff_eq]
        intro h
        exact absurd h.symm hc
      simp only [List.cons_append, replace_all_fuel, List.append_eq, hnp,
        Bool.false_eq_true, if_false]
      rw [ih f (by simp at hfuel ⊢; omega) (fun x hx => hl x (by simp [hx]))]

theorem replace_all_tail (pat rep l : Str) (p0 : Char) (pt : Str)
    (hpat : pat = p0 :: pt) (hl : ∀ c ∈ l, c ≠ p0) :
    replace_all pat rep (l ++ pat) = l ++ rep := by
  unfold replace_all
  rw [if_neg (by simp [hpat])]
  exact replace_all_fuel_tail pat rep p0 pt hpat l (l ++ pat).length le_rfl hl

theorem offset_chars_zero : offset_chars 0 = plus0000 := by decide

theorem parse_offset_plus : parse_offset_part plus0000 = some (0, []) := by decide

theorem parse_offset_z : parse_offset_part [Char.ofNat 90] = some (0, []) := by decide

theorem zstr_eq : zstr = [Char.ofNat 90] := by decide

theorem isoformat_utc0 (dt : DateTime) (h : dt.tz = some 0) :
    isoformat dt = iso_core dt ++ plus0000 := by
  simp [isoformat, iso_core, h, offset_chars_zero, List.append_assoc]

theorem mk_checked_pos (y mo d h mi sec us : Nat) (tz : Option Int)
    (hok : date_ok y mo d ∧ h ≤ 23 ∧ mi ≤ 59 ∧ sec ≤ 59 ∧ us ≤ 999999) :
    mk_checked y mo d h mi sec us tz = some ⟨y, mo, d, h, mi, sec, us, tz⟩ := by
  simp [mk_checked, hok]

theorem after_frac_tail (y mo d h mi sec us : Nat) (t : Str)
    (ht : t = plus0000 ∨ t = [Char.ofNat 90]) :
    after_frac y mo d h mi sec us t = mk_checked y mo d h mi sec us (some 0) := by
  rcases ht with ht | ht <;> subst ht <;>
    simp [after_frac, plus0000, strL, parse_offset_part, read_n, read_n_aux,
      is_digit_c, char_val, expect_char]

theorem parse_frac_digits (us : Nat) (t : Str) (hus : us ≤ 999999)
    (ht : ∀ c ∈ t.take 1, is_digit_c c = false) :
    parse_frac (nat_digits 6 us ++ t) = some (us, t) := by
  obtain ⟨htw, hdw⟩ :=
    takeWhile_append_stop is_digit_c (nat_digits 6 us) t (nat_digits_digits 6 us) ht
  have hlen : (nat_digits 6 us).length = 6 := nat_digits_length 6 us
  simp only [parse_frac, htw, hdw, hlen]
  rw [if_neg (by omega)]
  rw [digits_val_nat_digits]
  have : us % 10 ^ 6 = us := Nat.mod_eq_of_lt (by omega)
  simp [this]
  omega

theorem after_sec_tail (y mo d h mi sec us : Nat) (t : Str) (hus : us ≤ 999999)
    (ht : t = plus0000 ∨ t = [Char.ofNat 90]) :
    after_sec y mo d h mi sec
      ((if us = 0 then [] else '.' :: nat_digits 6 us) ++ t) =
      mk_checked y mo d h mi sec us (some 0) := by
  by_cases h0 : us = 0
  · subst h0
    rw [if_pos rfl, List.nil_append]
    have hfr := after_frac_tail y mo d h mi sec 0 t ht
    rcases ht with ht | ht <;> subst ht <;>
      simpa [after_sec, plus0000, strL] using hfr
  · rw [if_neg h0, List.cons_append]
    have hfr : parse_frac (nat_digits 6 us ++ t) = some (us, t) := by
      apply parse_frac_digits us t hus
      rcases ht with ht | ht <;> subst ht <;> decide
    simp only [after_sec, hfr]
    exact after_frac_tail y mo d h mi sec us t ht

theorem days_in_month_le (y mo : Nat) : days_in_month y mo ≤ 31 := by
  unfold days_in_month
  split
  · split <;> omega
  · split <;> omega

theorem days_in_month_pos (y mo : Nat) : 1 ≤ days_in_month y mo := by
  unfold days_in_month
  split
  · split <;> omega
  · split <;> omega

theorem parse_date_part_digits (y mo d : Nat) (rest : Str)
    (hy : y < 10000) (hmo : mo < 100) (hd : d < 100) :
    parse_date_part (nat_digits 4 y ++ '-' ::
      (nat_digits 2 mo ++ '-' :: (nat_digits 2 d ++ rest))) = some (y, mo, d, rest) := by
  simp only [parse_date_part, read_n_digits 4 y _ hy, expect_char_cons,
    read_n_digits 2 mo _ hmo, read_n_digits 2 d _ hd]

theorem fromisoformat_iso_tail (dt : DateTime) (hv : dt.Valid) (t : Str)
    (ht : t = plus0000 ∨ t = [Char.ofNat 90]) :
    fromisoformat (iso_core dt ++ t) = some (with_utc0 dt) := by
  obtain ⟨y, mo, d, h, mi, sec, us, tz⟩ := dt
  obtain ⟨⟨hy1, hy2, hmo1, hmo2, hd1, hd2⟩, hh, hmi, hsec, hus, _⟩ := hv
  dsimp only at hy1 hy2 hmo1 hmo2 hd1 hd2 hh hmi hsec hus
  have hdlt : d < 100 := by
    have := days_in_month_le y mo
    omega
  simp only [iso_core, List.append_assoc, List.cons_append]
  simp only [fromisoformat,
    parse_date_part_digits y mo d _ (by omega) (by omega) hdlt]
  simp only [true_or, if_true]
  simp only [read_n_digits 2 h _ (by omega), expect_char_cons,
    read_n_digits 2 mi _ (by omega), read_n_digits 2 sec _ (by omega)]
  rw [after_sec_tail y mo d h mi sec us t (by omega) ht,
    mk_checked_pos _ _ _ _ _ _ _ _ ⟨⟨hy1, hy2, hmo1, hmo2, hd1, hd2⟩, hh, hmi, hsec, hus⟩]
  rfl

theorem days_in_month_12 (y : Nat) : days_in_month y 12 = 31 := by
  simp [days_in_month]

theorem prev_day_valid (y mo d : Nat) (hok : date_ok y mo d) (y2 mo2 d2 : Nat)
    (h : prev_day y mo d = some (y2, mo2, d2)) : date_ok y2 mo2 d2 := by
  obtain ⟨h1, h2, h3, h4, h5, h6⟩ := hok
  unfold prev_day at h
  split at h
  · simp only [Option.some.injEq, Prod.mk.injEq] at h
    obtain ⟨rfl, rfl, rfl⟩ := h
    exact ⟨h1, h2, h3, h4, by omega, by omega⟩
  · split at h
    · simp only [Option.some.injEq, Prod.mk.injEq] at h
      obtain ⟨rfl, rfl, rfl⟩ := h
      exact ⟨h1, h2, by omega, by omega, days_in_month_pos _ _, le_rfl⟩
    · split at h
      · simp only [Option.some.injEq, Prod.mk.injEq] at h
        obtain ⟨rfl, rfl, rfl⟩ := h
        refine ⟨by omega, by omega, by omega, by omega, by omega, ?_⟩
        rw [days_in_month_12]
      · exact absurd h (by simp)

theorem next_day_valid (y mo d : Nat) (hok : date_ok y mo d) (y2 mo2 d2 : Nat)
    (h : next_day y mo d = some (y2, mo2, d2)) : date_ok y2 mo2 d2 := by
  obtain ⟨h1, h2, h3, h4, h5, h6⟩ := hok
  unfold next_day at h
  split at h
  · simp only [Option.some.injEq, Prod.mk.injEq] at h
    obtain ⟨rfl, rfl, rfl⟩ := h
    exact ⟨h1, h2, h3, h4, by omega, by omega⟩
  · split at h
    · simp only [Option.some.injEq, Prod.mk.injEq] at h
      obtain ⟨rfl, rfl, rfl⟩ := h
      exact ⟨h1, h2, by omega, by omega, by omega, days_in_month_pos _ _⟩
    · split at h
      · simp only [Option.some.injEq, Prod.mk.injEq] at h
        obtain ⟨rfl, rfl, rfl⟩ := h
        exact ⟨by omega, by omega, by omega, by omega, by omega,
          days_in_month_pos _ _⟩
      · exact absurd h (by simp)

theorem astimezone_utc_id (dt : DateTime) (h : TimeOk dt) :
    astimezone_utc dt = some dt := by
  obtain ⟨y, mo, d, hh, mi, sec, us, tz⟩ := dt
  obtain ⟨h1, h2, h3⟩ := h
  dsimp only at h1 h2 h3
  subst h3
  unfold astimezone_utc
  dsimp only
  rw [if_neg (by push_cast; omega), if_neg (by push_cast; omega)]
  simp only [Option.some.injEq, DateTime.mk.injEq, and_true, true_and]
  exact ⟨by push_cast; omega, by push_cast; omega⟩

theorem astimezone_tz0 (dt : DateTime) (o : Int) (ho : dt.tz = some o)
    (d2 : DateTime) (h : astimezone_utc dt = some d2) : d2.tz = some 0 := by
  unfold astimezone_utc at h
  rw [ho] at h
  dsimp only at h
  split at h
  · split at h
    · exact absurd h (by simp)
    · simp only [Option.some.injEq] at h
      subst h; rfl
  · split at h
    · split at h
      · exact absurd h (by simp)
      · simp only [Option.some.injEq] at h
        subst h; rfl
    · simp only [Option.some.injEq] at h
      subst h; rfl

theorem astimezone_time_ok (dt : DateTime) (o : Int) (ho : dt.tz = some o)
    (hh : dt.hour ≤ 23) (hm : dt.minute ≤ 59) (hb : o.natAbs ≤ 1439)
    (d2 : DateTime) (h : astimezone_utc dt = some d2) : TimeOk d2 := by
  unfold astimezone_utc at h
  rw [ho] at h
  dsimp only at h
  split at h
  · split at h
    · exact absurd h (by simp)
    · simp only [Option.some.injEq] at h
      subst h
      refine ⟨?_, ?_, rfl⟩ <;> dsimp only <;> omega
  · split at h
    · split at h
      · exact absurd h (by simp)
      · simp only [Option.some.injEq] at h
        subst h
        refine ⟨?_, ?_, rfl⟩ <;> dsimp only <;> omega
    · simp only [Option.some.injEq] at h
      subst h
      refine ⟨?_, ?_, rfl⟩ <;> dsimp only <;> omega

theorem astimezone_valid (dt : DateTime) (hv : dt.Valid) (d2 : DateTime)
    (h : astimezone_utc dt = some d2) : d2.Valid := by
  obtain ⟨hdate, hh, hm, hs, hu, hoff⟩ := hv
  unfold astimezone_utc at h
  rcases htz : dt.tz with _ | o
  · rw [htz] at h
    dsimp only at h
    simp only [Option.some.injEq] at h
    subst h
    exact ⟨hdate, hh, hm, hs, hu, by rw [htz]; trivial⟩
  · rw [htz] at h
    have hb : o.natAbs ≤ 1439 := by rw [htz] at hoff; exact hoff
    dsimp only at h
    split at h
    · split at h
      · exact absurd h (by simp)
      · rename_i hprev
        simp only [Option.some.injEq] at h
        subst h
        have hd2 := prev_day_valid dt.year dt.month dt.day hdate _ _ _ hprev
        exact ⟨hd2, by dsimp only; omega, by dsimp only; omega, hs, hu, by dsimp only; decide⟩
    · split at h
      · split at h
        · exact absurd h (by simp)
        · rename_i hnext
          simp only [Option.some.injEq] at h
          subst h
          have hd2 := next_day_valid dt.year dt.month dt.day hdate _ _ _ hnext
          exact ⟨hd2, by dsimp only; omega, by dsimp only; omega, hs, hu, by dsimp only; decide⟩
      · simp only [Option.some.injEq] at h
        subst h
        exact ⟨hdate, by dsimp only; omega, by dsimp only; omega, hs, hu, by dsimp only; decide⟩

theorem digit_ne_plus (c : Char) (h : is_digit_c c = true) : c ≠ '+' := by
  intro heq
  subst heq
  simp [is_digit_c] at h

theorem digit_ne_z (c : Char) (h : is_digit_c c = true) : c ≠ Char.ofNat 90 := by
  intro heq
  subst heq
  simp [is_digit_c] at h

theorem iso_core_chars (dt : DateTime) :
    ∀ c ∈ iso_core dt,
      is_digit_c c = true ∨ c = '-' ∨ c = 'T' ∨ c = ':' ∨ c = '.' := by
  intro c hc
  simp only [iso_core, List.mem_append, List.mem_cons] at hc
  by_cases h0 : dt.microsecond = 0
  · rw [if_pos h0] at hc
    simp only [List.not_mem_nil, or_false] at hc
    casesm* _ ∨ _
    all_goals first
      | (rename_i h; exact Or.inl (nat_digits_digits _ _ c h))
      | (rename_i h; subst h; simp)
  · rw [if_neg h0] at hc
    simp only [List.mem_cons] at hc
    casesm* _ ∨ _
    all_goals first
      | (rename_i h; exact Or.inl (nat_digits_digits _ _ c h))
      | (rename_i h; subst h; simp)

theorem iso_core_no_plus (dt : DateTime) : ∀ c ∈ iso_core dt, c ≠ '+' := by
  intro c hc
  rcases iso_core_chars dt c hc with h | h | h | h | h
  · exact digit_ne_plus c h
  all_goals subst h; decide

theorem iso_core_no_z (dt : DateTime) : ∀ c ∈ iso_core dt, c ≠ Char.ofNat 90 := by
  intro c hc
  rcases iso_core_chars dt c hc with h | h | h | h | h
  · exact digit_ne_z c h
  all_goals subst h; decide

theorem replace_plus_z (dt : DateTime) (h0 : dt.tz = some 0) :
    replace_all plus0000 zstr (isoformat dt) = iso_core dt ++ [Char.ofNat 90] := by
  rw [isoformat_utc0 dt h0]
  rw [replace_all_tail plus0000 zstr (iso_core dt) '+' (strL "00:00") (by decide)
    (iso_core_no_plus dt)]
  rw [zstr_eq]

theorem to_rfc3339_timeok (dt : DateTime) (h : TimeOk dt) :
    to_rfc3339 (some dt) = some (some (iso_core dt ++ [Char.ofNat 90])) := by
  have htz : dt.tz = some 0 := h.2.2
  unfold to_rfc3339
  dsimp only
  rw [htz]
  rw [if_neg (by simp)]
  rw [astimezone_utc_id dt h]
  dsimp only
  rw [replace_plus_z dt htz]

theorem mk_checked_valid (y mo d h mi sec us : Nat) (tz : Option Int)
    (hb : off_bound tz) (dt : DateTime)
    (hmk : mk_checked y mo d h mi sec us tz = some dt) : dt.Valid := by
  unfold mk_checked at hmk
  split at hmk
  · rename_i hok
    simp only [Option.some.injEq] at hmk
    subst hmk
    exact ⟨hok.1, hok.2.1, hok.2.2.1, hok.2.2.2.1, hok.2.2.2.2, hb⟩
  · exact absurd hmk (by simp)

theorem parse_offset_part_bound (s : Str) (off : Int) (r : Str)
    (h : parse_offset_part s = some (off, r)) : off.natAbs ≤ 1439 := by
  unfold parse_offset_part at h
  split at h
  · exact absurd h (by simp)
  · split at h
    · simp only [Option.some.injEq, Prod.mk.injEq] at h
      obtain ⟨rfl, rfl⟩ := h
      decide
    · split at h
      · split at h
        · exact absurd h (by simp)
        · split at h
          · exact absurd h (by simp)
          · split at h
            · exact absurd h (by simp)
            · split at h
              · rename_i hcond
                simp only [Option.some.injEq, Prod.mk.injEq] at h
                obtain ⟨rfl, rfl⟩ := h
                split <;> omega
              · exact absurd h (by simp)
      · exact absurd h (by simp)

theorem after_frac_valid (y mo d h mi sec us : Nat) (s : Str) (dt : DateTime)
    (hh : after_frac y mo d h mi sec us s = some dt) : dt.Valid := by
  unfold after_frac at hh
  split at hh
  · exact mk_checked_valid _ _ _ _ _ _ _ none trivial dt hh
  · split at hh
    · rename_i off hmm hoff
      exact mk_checked_valid _ _ _ _ _ _ _ (some hmm)
        (parse_offset_part_bound _ _ _ hoff) dt hh
    · exact absurd hh (by simp)

theorem after_sec_valid (y mo d h mi sec : Nat) (s : Str) (dt : DateTime)
    (hh : after_sec y mo d h mi sec s = some dt) : dt.Valid := by
  unfold after_sec at hh
  split at hh
  · split at hh
    · exact absurd hh (by simp)
    · exact after_frac_valid _ _ _ _ _ _ _ _ dt hh
  · split at hh
    · exact absurd hh (by simp)
    · exact after_frac_valid _ _ _ _ _ _ _ _ dt hh
  · exact after_frac_valid _ _ _ _ _ _ _ _ dt hh

theorem fromisoformat_valid (s : Str) (dt : DateTime)
    (h : fromisoformat s = some dt) : dt.Valid := by
  unfold fromisoformat at h
  split at h
  · exact absurd h (by simp)
  · split at h
    · exact mk_checked_valid _ _ _ _ _ _ _ none trivial dt h
    · split at h
      · split at h
        · exact absurd h (by simp)
        · split at h
          · exact absurd h (by simp)
          · split at h
            · exact absurd h (by simp)
            · split at h
              · split at h
                · exact absurd h (by simp)
                · exact after_sec_valid _ _ _ _ _ _ _ dt h
              · exact after_sec_valid _ _ _ _ _ _ _ dt h
      · exact absurd h (by simp)

theorem parse_rfc3339_timeok (ps : Option Str) (d : DateTime)
    (h : parse_rfc3339_timestamp ps = some (some d)) : TimeOk d := by
  unfold parse_rfc3339_timestamp at h
  split at h
  · exact absurd h (by simp)
  · split at h
    · exact absurd h (by simp)
    · dsimp only at h
      split at h
      · exact absurd h (by simp)
      · rename_i parsed hiso
        have hv := fromisoformat_valid _ _ hiso
        split at h
        · simp only [Option.some.injEq] at h
          subst h
          exact ⟨hv.2.1, hv.2.2.1, rfl⟩
        · rename_i htz
          split at h
          · exact absurd h (by simp)
          · rename_i p hconv
            simp only [Option.some.injEq] at h
            subst h
            obtain ⟨o, ho⟩ := Option.ne_none_iff_exists'.mp htz
            have hb : o.natAbs ≤ 1439 := by
              have hob := hv.2.2.2.2.2
              rw [ho] at hob
              exact hob
            exact astimezone_time_ok parsed o ho hv.2.1 hv.2.2.1 hb p hconv

theorem to_rfc3339_ends_z (dt : DateTime) (s : Str)
    (h : to_rfc3339 (some dt) = some (some s)) : s.getLast? = some (Char.ofNat 90) := by
  unfold to_rfc3339 at h
  dsimp only at h
  split at h
  · exact absurd h (by simp)
  · rename_i n hconv
    simp only [Option.some.injEq] at h
    subst h
    have htz0 : n.tz = some 0 := by
      by_cases hn : dt.tz = none
      · rw [if_pos hn] at hconv
        exact astimezone_tz0 (with_utc0 dt) 0 rfl n hconv
      · rw [if_neg hn] at hconv
        obtain ⟨o, ho⟩ := Option.ne_none_iff_exists'.mp hn
        exact astimezone_tz0 dt o ho n hconv
    rw [replace_plus_z n htz0]
    exact List.getLast?_concat _

theorem with_utc0_valid (dt : DateTime) (hv : dt.Valid) : (with_utc0 dt).Valid := by
  obtain ⟨hd, hh, hm, hs, hu, _⟩ := hv
  refine ⟨hd, hh, hm, hs, hu, ?_⟩
  show off_bound (some 0)
  decide

theorem norm_utc_time_ok (dt : DateTime) (hh : dt.hour ≤ 23) (hm : dt.minute ≤ 59)
    (hb : off_bound dt.tz) (d : DateTime) (h : norm_utc dt = some d) : TimeOk d := by
  unfold norm_utc at h
  split at h
  · rename_i hsome
    obtain ⟨o, ho⟩ := Option.isSome_iff_exists.mp hsome
    have hob : o.natAbs ≤ 1439 := by rw [ho] at hb; exact hb
    exact astimezone_time_ok dt o ho hh hm hob d h
  · simp only [Option.some.injEq] at h
    subst h
    exact ⟨hh, hm, rfl⟩

theorem norm_utc_valid (dt : DateTime) (hv : dt.Valid) (d : DateTime)
    (h : norm_utc dt = some d) : d.Valid := by
  unfold norm_utc at h
  split at h
  · exact astimezone_valid dt hv d h
  · simp only [Option.some.injEq] at h
    subst h
    exact with_utc0_valid dt hv

theorem norm_utc_timeok_id (d : DateTime) (h : TimeOk d) : norm_utc d = some d := by
  unfold norm_utc
  rw [if_pos (by rw [h.2.2]; rfl)]
  exact astimezone_utc_id d h

theorem to_rfc3339_opt_ok (pd : Option DateTime)
    (h : ∀ x, pd = some x → TimeOk x) :
    ∃ pt, to_rfc3339 pd = some pt ∧ none_or_ends_z pt = true := by
  cases pd with
  | none => exact ⟨none, rfl, rfl⟩
  | some x =>
    refine ⟨some (iso_core x ++ [Char.ofNat 90]), to_rfc3339_timeok x (h x rfl), ?_⟩
    simp only [none_or_ends_z]
    rw [List.getLast?_concat]
    simp

theorem build_raw_row_eq (mid eid : Option Str) (pd : Option DateTime)
    (ing : DateTime) (event : Event) (attrs : Option Attrs) (iv : Bool)
    (verr : Option (List Defect)) (cfg : PipelineConfig) (pt it : Option Str)
    (h1 : to_rfc3339 pd = some pt) (h2 : to_rfc3339 (some ing) = some it) :
    build_raw_row mid eid pd ing event attrs iv verr cfg =
      some
        { message_id := mid
          event_id := eid
          publish_time := pt
          ingestion_time := it
          raw_payload := dumps_obj event
          source := cfg.source
          attributes := dumps_obj (attrs.getD [])
          is_valid := iv
          validation_errors :=
            match verr with
            | some ds =>
              if ds = [] then none
              else some (dumps_value (.arr (ds.map (fun d => .obj [(strL "loc", .arr [.str d.loc]), (strL "type", .str d.kind)]))))
            | none => none } := by
  unfold build_raw_row
  rw [h1, h2]

theorem insert_error_row_eq (mid : Option Str) (pd : Option DateTime)
    (ing : DateTime) (eid : Option Str) (stage emsg : Str)
    (edetails : Option (List Defect)) (event : Event) (attrs : Option Attrs)
    (cfg : PipelineConfig) (pt it : Option Str)
    (h1 : to_rfc3339 pd = some pt) (h2 : to_rfc3339 (some ing) = some it) :
    insert_error_row mid pd ing eid stage emsg edetails event attrs cfg =
      some
        { message_id := mid
          event_id := eid
          publish_time := pt
          ingestion_time := it
          stage := stage
          error_message := emsg
          error_details := edetails.map (fun ds => dumps_value (.arr (ds.map (fun d => .obj [(strL "loc", .arr [.str d.loc]), (strL "type", .str d.kind)]))))
          raw_payload := dumps_obj event
          attributes := dumps_obj (attrs.getD [])
          source := cfg.source } := by
  unfold insert_error_row
  rw [h1, h2]

theorem build_processed_row_eq (v : EcommerceEvent) (eid : Option Str)
    (etd : Option DateTime) (ing : DateTime) (et it : Option Str)
    (h1 : to_rfc3339 etd = some et) (h2 : to_rfc3339 (some ing) = some it) :
    build_processed_row v eid etd ing =
      some
        { event_id := eid
          user_id := v.user_id
          event_type := v.event_type.value
          product_id := v.product_id
          category := v.category
          price := v.price
          device := v.device.value
          city := v.city
          event_time := et
          ingestion_time := it } := by
  unfold build_processed_row
  rw [h1, h2]

theorem epoch_fields (q : Dec) (d : DateTime) (h : epoch_datetime q = some d) :
    d.hour ≤ 23 ∧ d.minute ≤ 59 ∧ d.tz = some 0 := by
  unfold epoch_datetime at h
  dsimp only at h
  split at h
  · simp only [Option.some.injEq] at h
    subst h
    refine ⟨?_, ?_, rfl⟩ <;> dsimp only <;> omega
  · exact absurd h (by simp)

theorem v_event_time_fields (x : Option Value) (d : DateTime)
    (h : v_event_time x = .ok d) :
    d.hour ≤ 23 ∧ d.minute ≤ 59 ∧ off_bound d.tz := by
  unfold v_event_time at h
  split at h
  · exact absurd h (by simp)
  · split at h
    · rename_i hiso
      simp only [Except.ok.injEq] at h
      subst h
      have hv := fromisoformat_valid _ _ hiso
      exact ⟨hv.2.1, hv.2.2.1, hv.2.2.2.2.2⟩
    · exact absurd h (by simp)
  · split at h
    · rename_i hep
      simp only [Except.ok.injEq] at h
      subst h
      obtain ⟨hh, hm, htz⟩ := epoch_fields _ _ hep
      exact ⟨hh, hm, by rw [htz]; decide⟩
    · exact absurd h (by simp)
  · exact absurd h (by simp)

theorem model_validate_ok_time (e : Event) (v : EcommerceEvent)
    (h : model_validate e = .ok v) :
    v.event_time.hour ≤ 23 ∧ v.event_time.minute ≤ 59 ∧ off_bound v.event_time.tz := by
  unfold model_validate at h
  dsimp only at h
  split at h
  · rename_i heq9
    simp only [Except.ok.injEq] at h
    subst h
    exact v_event_time_fields _ _ heq9
  · exact absurd h (by simp)

theorem spec_of_shape {α : Type} (r : Except (List Defect) α) (key : Str)
    (hr : (∃ a, r = .ok a) ∨ ∃ k, r = .error [⟨key, k⟩]) :
    (∀ ds, r = .error ds → ds ≠ []) ∧ (∀ d ∈ errs r, d.loc = key) := by
  rcases hr with ⟨a, rfl⟩ | ⟨k, rfl⟩
  · exact ⟨fun ds h => absurd h (by simp), fun d hd => absurd hd (by simp [errs])⟩
  · constructor
    · intro ds h
      simp only [Except.error.injEq] at h
      subst h; simp
    · intro d hd
      simp only [errs, List.mem_singleton] at hd
      subst hd; rfl

theorem v_event_id_shape (x : Option Value) :
    (∃ a, v_event_id x = .ok a) ∨ ∃ k, v_event_id x = .error [⟨key_event_id, k⟩] := by
  rcases x with _ | (s | q | b | _ | l | l) <;> simp only [v_event_id]
  · exact Or.inr ⟨_, rfl⟩
  · rcases hu : uuid_parse s with _ | u <;> simp only
    · exact Or.inr ⟨_, rfl⟩
    · exact Or.inl ⟨_, rfl⟩
  all_goals exact Or.inr ⟨_, rfl⟩

theorem v_str_field_shape (key : Str) (x : Option Value) :
    (∃ a, v_str_field key x = .ok a) ∨ ∃ k, v_str_field key x = .error [⟨key, k⟩] := by
  rcases x with _ | (s | q | b | _ | l | l) <;> simp only [v_str_field]
  · exact Or.inr ⟨_, rfl⟩
  · split_ifs
    · exact Or.inr ⟨_, rfl⟩
    · exact Or.inr ⟨_, rfl⟩
    · exact Or.inl ⟨_, rfl⟩
  all_goals exact Or.inr ⟨_, rfl⟩

theorem v_event_type_shape (x : Option Value) :
    (∃ a, v_event_type x = .ok a) ∨ ∃ k, v_event_type x = .error [⟨key_event_type, k⟩] := by
  rcases x with _ | (s | q | b | _ | l | l) <;> simp only [v_event_type]
  · exact Or.inr ⟨_, rfl⟩
  · rcases hu : event_type_of s with _ | t <;> simp only
    · exact Or.inr ⟨_, rfl⟩
    · exact Or.inl ⟨_, rfl⟩
  all_goals exact Or.inr ⟨_, rfl⟩

theorem v_device_shape (x : Option Value) :
    (∃ a, v_device x = .ok a) ∨ ∃ k, v_device x = .error [⟨key_device, k⟩] := by
  rcases x with _ | (s | q | b | _ | l | l) <;> simp only [v_device]
  · exact Or.inr ⟨_, rfl⟩
  · rcases hu : device_type_of s with _ | t <;> simp only
    · exact Or.inr ⟨_, rfl⟩
    · exact Or.inl ⟨_, rfl⟩
  all_goals exact Or.inr ⟨_, rfl⟩

theorem v_price_shape (x : Option Value) :
    (∃ a, v_price x = .ok a) ∨ ∃ k, v_price x = .error [⟨key_price, k⟩] := by
  rcases x with _ | (s | q | b | _ | l | l) <;> simp only [v_price]
  · exact Or.inr ⟨_, rfl⟩
  · rcases hp : parse_float s with _ | q <;> simp only
    · exact Or.inr ⟨_, rfl⟩
    · split_ifs
      · exact Or.inl ⟨_, rfl⟩
      · exact Or.inr ⟨_, rfl⟩
  · split_ifs
    · exact Or.inl ⟨_, rfl⟩
    · exact Or.inr ⟨_, rfl⟩
  all_goals exact Or.inr ⟨_, rfl⟩

theorem v_event_time_spec (x : Option Value) :
    (∀ ds, v_event_time x = .error ds → ds ≠ []) ∧
      (∀ d ∈ errs (v_event_time x), d.loc = key_event_time) := by
  constructor
  · intro ds h
    unfold v_event_time at h
    split at h <;>
      first
        | (simp only [Except.error.injEq] at h; subst h; simp)
        | (split at h <;>
            first
              | (simp only [Except.error.injEq] at h; subst h; simp)
              | exact absurd h (by simp))
        | exact absurd h (by simp)
  · intro d hd
    rcases hr : v_event_time x with ds | a
    · rw [hr] at hd
      simp only [errs] at hd
      unfold v_event_time at hr
      split at hr <;>
        first
          | (simp only [Except.error.injEq] at hr; subst hr;
             simp only [List.mem_singleton] at hd; subst hd; rfl)
          | (split at hr <;>
              first
                | (simp only [Except.error.injEq] at hr; subst hr;
                   simp only [List.mem_singleton] at hd; subst hd; rfl)
                | exact absurd hr (by simp))
          | exact absurd hr (by simp)
    · rw [hr] at hd
      simp [errs] at hd

theorem v_event_id_spec (x : Option Value) :
    (∀ ds, v_event_id x = .error ds → ds ≠ []) ∧
      (∀ d ∈ errs (v_event_id x), d.loc = key_event_id) :=
  spec_of_shape _ _ (v_event_id_shape x)

theorem v_str_field_spec (key : Str) (x : Option Value) :
    (∀ ds, v_str_field key x = .error ds → ds ≠ []) ∧
      (∀ d ∈ errs (v_str_field key x), d.loc = key) :=
  spec_of_shape _ _ (v_str_field_shape key x)

theorem v_event_type_spec (x : Option Value) :
    (∀ ds, v_event_type x = .error ds → ds ≠ []) ∧
      (∀ d ∈ errs (v_event_type x), d.loc = key_event_type) :=
  spec_of_shape _ _ (v_event_type_shape x)

theorem v_device_spec (x : Option Value) :
    (∀ ds, v_device x = .error ds → ds ≠ []) ∧
      (∀ d ∈ errs (v_device x), d.loc = key_device) :=
  spec_of_shape _ _ (v_device_shape x)

theorem v_price_spec (x : Option Value) :
    (∀ ds, v_price x = .error ds → ds ≠ []) ∧
      (∀ d ∈ errs (v_price x), d.loc = key_price) :=
  spec_of_shape _ _ (v_price_shape x)

theorem model_validate_error_eq (e : Event) (ds : List Defect)
    (h : model_validate e = .error ds) :
    ds = errs (v_event_id (lookup_key e key_event_id)) ++
      errs (v_str_field key_user_id (lookup_key e key_user_id)) ++
      errs (v_event_type (lookup_key e key_event_type)) ++
      errs (v_str_field key_product_id (lookup_key e key_product_id)) ++
      errs (v_str_field key_category (lookup_key e key_category)) ++
      errs (v_price (lookup_key e key_price)) ++
      errs (v_device (lookup_key e key_device)) ++
      errs (v_str_field key_city (lookup_key e key_city)) ++
      errs (v_event_time (lookup_key e key_event_time)) := by
  unfold model_validate at h
  dsimp only at h
  split at h <;>
    first
      | (simp only [Except.error.injEq] at h; subst h; rfl)
      | exact absurd h (by simp)

theorem model_validate_ok_of (e : Event) (a1 : Nat) (a2 : Str) (a3 : EventType)
    (a4 a5 : Str) (a6 : Dec) (a7 : DeviceType) (a8 : Str) (a9 : DateTime)
    (h1 : v_event_id (lookup_key e key_event_id) = .ok a1)
    (h2 : v_str_field key_user_id (lookup_key e key_user_id) = .ok a2)
    (h3 : v_event_type (lookup_key e key_event_type) = .ok a3)
    (h4 : v_str_field key_product_id (lookup_key e key_product_id) = .ok a4)
    (h5 : v_str_field key_category (lookup_key e key_category) = .ok a5)
    (h6 : v_price (lookup_key e key_price) = .ok a6)
    (h7 : v_device (lookup_key e key_device) = .ok a7)
    (h8 : v_str_field key_city (lookup_key e key_city) = .ok a8)
    (h9 : v_event_time (lookup_key e key_event_time) = .ok a9) :
    model_validate e = .ok ⟨a1, a2, a3, a4, a5, a6, a7, a8, a9⟩ := by
  unfold model_validate
  dsimp only
  rw [h1, h2, h3, h4, h5, h6, h7, h8, h9]

theorem errs_nil_ok {α : Type} (r : Except (List Defect) α)
    (hne : ∀ ds, r = .error ds → ds ≠ []) (h : errs r = []) : ∃ a, r = .ok a := by
  cases r with
  | error ds => exact absurd (by simpa [errs] using h) (hne ds rfl)
  | ok a => exact ⟨a, rfl⟩

theorem model_validate_error_ne (e : Event) (ds : List Defect)
    (h : model_validate e = .error ds) : ds ≠ [] := by
  intro hnil
  have hcat := model_validate_error_eq e ds h
  rw [hnil] at hcat
  have hall := hcat.symm
  simp only [List.append_eq_nil] at hall
  obtain ⟨⟨⟨⟨⟨⟨⟨⟨e1, e2⟩, e3⟩, e4⟩, e5⟩, e6⟩, e7⟩, e8⟩, e9⟩ := hall
  obtain ⟨b1, hb1⟩ := errs_nil_ok _ (v_event_id_spec _).1 e1
  obtain ⟨b2, hb2⟩ := errs_nil_ok _ ((v_str_field_spec key_user_id _).1) e2
  obtain ⟨b3, hb3⟩ := errs_nil_ok _ (v_event_type_spec _).1 e3
  obtain ⟨b4, hb4⟩ := errs_nil_ok _ ((v_str_field_spec key_product_id _).1) e4
  obtain ⟨b5, hb5⟩ := errs_nil_ok _ ((v_str_field_spec key_category _).1) e5
  obtain ⟨b6, hb6⟩ := errs_nil_ok _ (v_price_spec _).1 e6
  obtain ⟨b7, hb7⟩ := errs_nil_ok _ (v_device_spec _).1 e7
  obtain ⟨b8, hb8⟩ := errs_nil_ok _ ((v_str_field_spec key_city _).1) e8
  obtain ⟨b9, hb9⟩ := errs_nil_ok _ (v_event_time_spec _).1 e9
  have hok := model_validate_ok_of e b1 b2 b3 b4 b5 b6 b7 b8 b9
    hb1 hb2 hb3 hb4 hb5 hb6 hb7 hb8 hb9
  rw [h] at hok
  exact absurd hok (by simp)

theorem field_errs_event_id (v : Option Value) :
    field_errs key_event_id v = errs (v_event_id v) := by
  unfold field_errs
  rw [if_pos rfl]

theorem field_errs_user_id (v : Option Value) :
    field_errs key_user_id v = errs (v_str_field key_user_id v) := by
  unfold field_errs
  rw [if_neg (by decide), if_pos rfl]

theorem field_errs_event_type (v : Option Value) :
    field_errs key_event_type v = errs (v_event_type v) := by
  unfold field_errs
  rw [if_neg (by decide), if_neg (by decide), if_pos rfl]

theorem field_errs_product_id (v : Option Value) :
    field_errs key_product_id v = errs (v_str_field key_product_id v) := by
  unfold field_errs
  rw [if_neg (by decide), if_neg (by decide), if_neg (by decide), if_pos rfl]

theorem field_errs_category (v : Option Value) :
    field_errs key_category v = errs (v_str_field key_category v) := by
  unfold field_errs
  rw [if_neg (by decide), if_neg (by decide), if_neg (by decide),
    if_neg (by decide), if_pos rfl]

theorem field_errs_price (v : Option Value) :
    field_errs key_price v = errs (v_price v) := by
  unfold field_errs
  rw [if_neg (by decide), if_neg (by decide), if_neg (by decide),
    if_neg (by decide), if_neg (by decide), if_pos rfl]

theorem field_errs_device (v : Option Value) :
    field_errs key_device v = errs (v_device v) := by
  unfold field_errs
  rw [if_neg (by decide), if_neg (by decide), if_neg (by decide),
    if_neg (by decide), if_neg (by decide), if_neg (by decide), if_pos rfl]

theorem field_errs_city (v : Option Value) :
    field_errs key_city v = errs (v_str_field key_city v) := by
  unfold field_errs
  rw [if_neg (by decide), if_neg (by decide), if_neg (by decide),
    if_neg (by decide), if_neg (by decide), if_neg (by decide),
    if_neg (by decide), if_pos rfl]

theorem field_errs_event_time (v : Option Value) :
    field_errs key_event_time v = errs (v_event_time v) := by
  unfold field_errs
  rw [if_neg (by decide), if_neg (by decide), if_neg (by decide),
    if_neg (by decide), if_neg (by decide), if_neg (by decide),
    if_neg (by decide), if_neg (by decide), if_pos rfl]

theorem field_errs_flatten (e : Event) :
    (field_names.map (fun k => field_errs k (lookup_key e k))).flatten =
      errs (v_event_id (lookup_key e key_event_id)) ++
      errs (v_str_field key_user_id (lookup_key e key_user_id)) ++
      errs (v_event_type (lookup_key e key_event_type)) ++
      errs (v_str_field key_product_id (lookup_key e key_product_id)) ++
      errs (v_str_field key_category (lookup_key e key_category)) ++
      errs (v_price (lookup_key e key_price)) ++
      errs (v_device (lookup_key e key_device)) ++
      errs (v_str_field key_city (lookup_key e key_city)) ++
      errs (v_event_time (lookup_key e key_event_time)) := by
  simp only [field_names, List.map_cons, List.map_nil, List.flatten_cons,
    List.flatten_nil, field_errs_event_id, field_errs_user_id,
    field_errs_event_type, field_errs_product_id, field_errs_category,
    field_errs_price, field_errs_device, field_errs_city,
    field_errs_event_time, List.append_nil, List.append_assoc]

theorem event_type_value_of (t : EventType) : event_type_of t.value = some t := by
  cases t <;> decide

theorem device_value_of (t : DeviceType) : device_type_of t.value = some t := by
  cases t <;> decide

theorem v_event_type_roundtrip (t : EventType) :
    v_event_type (some (.str t.value)) = .ok t := by
  simp [v_event_type, event_type_value_of]

theorem v_device_roundtrip (t : DeviceType) :
    v_device (some (.str t.value)) = .ok t := by
  simp [v_device, device_value_of]

theorem v_price_roundtrip (p : Dec) (hp : Dec.le ⟨0, 0⟩ p = true) :
    v_price (some (.num p)) = .ok p := by
  simp [v_price, hp]

theorem event_time_dtx_valid_tok (e : Event) (v : EcommerceEvent)
    (eto : Option DateTime) (hok : model_validate e = .ok v)
    (h : event_time_dtx (some v) e = some eto) :
    ∃ etd, eto = some etd ∧ TimeOk etd := by
  obtain ⟨hh, hm, hb⟩ := model_validate_ok_time e v hok
  unfold event_time_dtx at h
  dsimp only at h
  rcases hn : norm_utc v.event_time with _ | d
  · rw [hn] at h
    exact absurd h (by simp)
  · rw [hn] at h
    simp only [Option.some.injEq] at h
    subst h
    exact ⟨d, rfl, norm_utc_time_ok v.event_time hh hm hb d hn⟩

/-- C1 (counterexample): the claim "for every inbound event whose payload
contains an event_id, process_event derives the event_id as idempotency key
regardless of the validity of all other fields" is false on the code: for a
payload carrying a parseable `event_id` but an invalid `price`, validation
fails, `event_id_str` is `None`, and every row write of the call uses the
transport `message_id` as its key instead of the event_id. -/
theorem C1_counterexample :
    lookup_key bad_price_event0 key_event_id = some (.str uuid0) ∧
    ((process_event bad_price_event0 (some (strL "m-1")) none none ok_writer
        cfg0 ing0).1.map (fun a => a.insert_id)) =
      [some (strL "m-1"), some (strL "m-1")] ∧
    (some (strL "m-1") : Option Str) ≠ some uuid0 := by
  refine ⟨by rfl, by decide, by decide⟩

/-- C1 (amended): every sink write of one `process_event` call uses the same
idempotency key, namely the canonical string of the validated event's
`event_id` when validation of the whole record succeeded, else the
transport `message_id` (when present and non-empty), else absent.  An
`event_id` present in a payload that fails validation does not become the
key. -/
theorem C1_amended_key_derivation (event : Event) (message_id : Option Str)
    (publish_time : Option Str) (attributes : Option Attrs) (writer : SinkWriter)
    (config : PipelineConfig) (ingestion_time : DateTime) :
    ((process_event event message_id publish_time attributes writer config
        ingestion_time).1.map (fun a => a.insert_id)).all
      (fun k => k = derived_key event message_id) = true := by
  unfold process_event
  dsimp only
  split
  · rfl
  · split
    · rfl
    · split
      · rfl
      · split
        · simp [derived_key]
        · split
          · split
            · simp [derived_key]
            · split <;> simp [derived_key]
          · split
            · simp [derived_key]
            · split
              · simp [derived_key]
              · split
                · simp [derived_key]
                · split <;> simp [derived_key]

/-- C2: the claim that a failed Error Row write in the validation path is
swallowed is false on the code, and the intent its own docstrings state
("best-effort", "return 2xx for invalid events") marks this as a code bug:
`_insert_error_event` at lines 240-252 is not wrapped in any handler, so a
sink failure on the diagnostic write escapes `process_event`, the caller
returns 5xx, and the permanently invalid event is redelivered.  Evaluated
here: an empty (hence invalid) payload whose error-table write fails makes
`process_event` raise that failure instead of returning. -/
theorem C2_validation_error_write_propagates :
    (model_validate ([] : Event)).isOk = false ∧
    ((process_event [] none none none (fail_on 1 "error sink down") cfg0
        ing0).1.map stage_of) = [none, some stage_validation] ∧
    (process_event [] none none none (fail_on 1 "error sink down") cfg0
        ing0).2 = some (.runtime (strL "error sink down")) := by
  refine ⟨by decide, by decide, by decide⟩

/-- C4: the claim that the original Processed-Row-write failure is always
the one propagated is false on the code, and the `finally: raise` at lines
286-287 shows the intent (re-raise the original) that Python's semantics
defeat: when the best-effort error write itself raises, the bare `raise`
inside `finally` re-raises that newer exception, so the secondary failure
escapes and masks the original.  Evaluated here: with the processed write
failing with one message and the error write with another, the caller
observes the error-sink failure, not the original. -/
theorem C4_secondary_masks_original :
    ((process_event valid_event0 (some (strL "m-1")) none none fail_both cfg0
        ing0).1.map (fun a => a.target.table_id)) =
      [cfg0.raw_table_id, cfg0.processed_table_id, cfg0.error_table_id] ∧
    ((process_event valid_event0 (some (strL "m-1")) none none fail_both cfg0
        ing0).1.map stage_of) = [none, none, some stage_processed_insert] ∧
    (process_event valid_event0 (some (strL "m-1")) none none fail_both cfg0
        ing0).2 = some (.runtime (strL "error sink down")) ∧
    (strL "error sink down" : Str) ≠ strL "processed insert failed" := by
  refine ⟨by decide, by decide, by decide, by decide⟩

/-- C7: the claim that `_parse_rfc3339_timestamp` never raises is false on
the code, and its own docstring ("Returns None if parsing fails") marks the
intent: the `parsed.astimezone(UTC)` call at line 117 sits outside the
`try`, and for a timestamp that parses to the very edge of the
representable year range the conversion raises `OverflowError`
(`"0001-01-01T00:00:00+01:00"`).  The second conjunct shows the input does
parse (so the absence value is not taken); the first shows the call
escapes with the uncaught exception, modelled as the outer `none`. -/
theorem C7_overflow_escape :
    parse_rfc3339_timestamp (some overflow_ts) = none ∧
    fromisoformat (replace_all zstr plus0000 (strip_ws overflow_ts)) =
      some ⟨1, 1, 1, 0, 0, 0, 0, some 60⟩ := by
  refine ⟨by decide, by decide⟩

/-- C3 (counterexample): the claim "exactly one Raw Row write is attempted
per call" is false as stated: a `publish_time` whose UTC conversion
overflows makes `process_event` raise before any sink write, so zero Raw
Row writes are attempted on that call. -/
theorem C3_counterexample :
    (process_event valid_event0 (some (strL "m-1")) (some overflow_ts) none
        ok_writer cfg0 ing0).1.length = 0 ∧
    (process_event valid_event0 (some (strL "m-1")) (some overflow_ts) none
        ok_writer cfg0 ing0).2 = some PyExc.overflow := by
  refine ⟨by decide, by decide⟩

theorem except_toOption_some {ε α : Type} (r : Except ε α) (v : α)
    (h : r.toOption = some v) : r = .ok v := by
  cases r with
  | ok a =>
    simp only [Except.toOption, Option.some.injEq] at h
    subst h
    rfl
  | error e => simp [Except.toOption] at h

theorem except_toOption_isOk {ε α : Type} (r : Except ε α) (v : α)
    (h : r.toOption = some v) : r.isOk = true := by
  rw [except_toOption_some r v h]
  rfl

theorem except_toOption_none_isOk {ε α : Type} (r : Except ε α)
    (h : r.toOption = none) : r.isOk = false := by
  cases r with
  | ok a => simp [Except.toOption] at h
  | error e => rfl

theorem insert_error_row_stage (mid : Option Str) (pd : Option DateTime)
    (ing : DateTime) (eid : Option Str) (stage emsg : Str)
    (edetails : Option (List Defect)) (event : Event) (attrs : Option Attrs)
    (cfg : PipelineConfig) (r : ErrorRow)
    (h : insert_error_row mid pd ing eid stage emsg edetails event attrs cfg = some r) :
    r.stage = stage := by
  unfold insert_error_row at h
  split at h
  · exact absurd h (by simp)
  · split at h
    · exact absurd h (by simp)
    · simp only [Option.some.injEq] at h
      subst h
      rfl

theorem insert_error_row_some (mid : Option Str) (pd : Option DateTime)
    (ing : DateTime) (eid : Option Str) (stage emsg : Str)
    (edetails : Option (List Defect)) (event : Event) (attrs : Option Attrs)
    (cfg : PipelineConfig) (hpd : ∀ x, pd = some x → TimeOk x) (hing : TimeOk ing) :
    ∃ r, insert_error_row mid pd ing eid stage emsg edetails event attrs cfg = some r := by
  obtain ⟨pt, hpt, _⟩ := to_rfc3339_opt_ok pd hpd
  exact ⟨_, insert_error_row_eq mid pd ing eid stage emsg edetails event attrs cfg
    pt _ hpt (to_rfc3339_timeok ing hing)⟩

theorem build_processed_row_some (v : EcommerceEvent) (eid : Option Str)
    (etd : DateTime) (ing : DateTime) (hetd : TimeOk etd) (hing : TimeOk ing) :
    ∃ r, build_processed_row v eid (some etd) ing = some r := by
  exact ⟨_, build_processed_row_eq v eid (some etd) ing _ _
    (to_rfc3339_timeok etd hetd) (to_rfc3339_timeok ing hing)⟩

theorem build_raw_row_some (mid eid : Option Str) (pd : Option DateTime)
    (ing : DateTime) (event : Event) (attrs : Option Attrs) (iv : Bool)
    (verr : Option (List Defect)) (cfg : PipelineConfig)
    (hpd : ∀ x, pd = some x → TimeOk x) (hing : TimeOk ing) :
    ∃ r, build_raw_row mid eid pd ing event attrs iv verr cfg = some r := by
  obtain ⟨pt, hpt, _⟩ := to_rfc3339_opt_ok pd hpd
  exact ⟨_, build_raw_row_eq mid eid pd ing event attrs iv verr cfg
    pt _ hpt (to_rfc3339_timeok ing hing)⟩

theorem att_kind_errv (a : WriteAttempt) (r : ErrorRow) (h : a.row = .error r)
    (hs : r.stage = stage_validation) : att_kind a = .errvk := by
  unfold att_kind
  rw [h]
  dsimp only
  rw [hs, if_pos rfl]

theorem att_kind_errpi (a : WriteAttempt) (r : ErrorRow) (h : a.row = .error r)
    (hs : r.stage = stage_processed_insert) : att_kind a = .errpik := by
  unfold att_kind
  rw [h]
  dsimp only
  rw [hs, if_neg (by decide), if_pos rfl]

/-- C5: if the Raw Row write fails, `process_event` attempts no further
sink write for that event — the trace consists of the single raw-table
attempt — and the sink failure propagates uncaught to the caller. -/
theorem C5_raw_failure_halts (event : Event) (message_id publish_time : Option Str)
    (attributes : Option Attrs) (writer : SinkWriter) (config : PipelineConfig)
    (ingestion_time : DateTime) (exc : PyExc)
    (hne : (process_event event message_id publish_time attributes writer config
        ingestion_time).1.length ≠ 0)
    (hfail : writer 0 ((process_event event message_id publish_time attributes
        writer config ingestion_time).1.head!) = some exc) :
    (process_event event message_id publish_time attributes writer config
        ingestion_time).1.length = 1 ∧
    is_raw_att ((process_event event message_id publish_time attributes writer
        config ingestion_time).1.head!) = true ∧
    (process_event event message_id publish_time attributes writer config
        ingestion_time).2 = some exc := by
  revert hne hfail
  unfold process_event
  dsimp only
  split
  · intro hne _
    exact absurd rfl hne
  · split
    · intro hne _
      exact absurd rfl hne
    · split
      · intro hne _
        exact absurd rfl hne
      · split
        · intro _ hfail
          simp_all [is_raw_att, List.head!]
        · split
          · split
            · intro _ hfail
              simp_all
            · split <;> intro _ hfail <;> simp_all
          · split
            · intro _ hfail
              simp_all
            · split
              · intro _ hfail
                simp_all
              · split
                · intro _ hfail
                  simp_all
                · split <;> intro _ hfail <;> simp_all

/-- C5 (witness): a concrete call whose raw write fails: one attempt, a raw
row, and the failure propagated. -/
theorem C5_raw_failure_halts_witness :
    ((process_event valid_event0 (some (strL "m-1")) none none
        (fail_on 0 "bigquery down") cfg0 ing0).1.length ≠ 0 ∧
      (fail_on 0 "bigquery down") 0 ((process_event valid_event0
        (some (strL "m-1")) none none (fail_on 0 "bigquery down") cfg0
        ing0).1.head!) = some (.runtime (strL "bigquery down"))) ∧
    ((process_event valid_event0 (some (strL "m-1")) none none
        (fail_on 0 "bigquery down") cfg0 ing0).1.length = 1 ∧
      is_raw_att ((process_event valid_event0 (some (strL "m-1")) none none
        (fail_on 0 "bigquery down") cfg0 ing0).1.head!) = true ∧
      (process_event valid_event0 (some (strL "m-1")) none none
        (fail_on 0 "bigquery down") cfg0 ing0).2 =
        some (.runtime (strL "bigquery down"))) :=
  ⟨⟨by decide, by decide⟩,
    C5_raw_failure_halts valid_event0 (some (strL "m-1")) none none
      (fail_on 0 "bigquery down") cfg0 ing0 (.runtime (strL "bigquery down"))
      (by decide) (by decide)⟩

theorem att_kind_mk_raw (t : BigQueryTarget) (r : RawRow) (iid : Option Str) :
    att_kind ⟨t, .raw r, iid⟩ = .rawk := rfl

theorem att_kind_mk_proc (t : BigQueryTarget) (r : ProcessedRow) (iid : Option Str) :
    att_kind ⟨t, .processed r, iid⟩ = .prock := rfl

theorem att_kind_mk_errv (t : BigQueryTarget) (r : ErrorRow) (iid : Option Str)
    (hs : r.stage = stage_validation) : att_kind ⟨t, .error r, iid⟩ = .errvk := by
  unfold att_kind
  dsimp only
  rw [hs, if_pos rfl]

theorem att_kind_mk_errpi (t : BigQueryTarget) (r : ErrorRow) (iid : Option Str)
    (hs : r.stage = stage_processed_insert) : att_kind ⟨t, .error r, iid⟩ = .errpik := by
  unfold att_kind
  dsimp only
  rw [hs, if_neg (by decide), if_pos rfl]

/-- C3 (amended): per call of `process_event`, unless a timestamp-range
overflow aborts the call before any write (in which case no write at all is
attempted and the overflow propagates), exactly one Raw Row write is
attempted and it comes first; at most one of Processed Row or
Error Row(validation) follows — the validation Error Row exactly when
validation failed and the raw write succeeded, the Processed Row exactly
when validation succeeded and the raw write succeeded; and an
Error Row(processed_insert) is attempted only after a failed Processed Row
write. -/
theorem C3_amended_router_invariant (event : Event) (message_id publish_time : Option Str)
    (attributes : Option Attrs) (writer : SinkWriter) (config : PipelineConfig)
    (ingestion_time : DateTime) (hing : TimeOk ingestion_time)
    (tr : List WriteAttempt) (out : Option PyExc)
    (hrun : process_event event message_id publish_time attributes writer config
        ingestion_time = (tr, out)) :
    (tr = [] ∧ out = some PyExc.overflow) ∨
    (∃ a e, tr = [a] ∧ att_kind a = .rawk ∧ writer 0 a = some e ∧ out = some e) ∨
    (∃ a0 a1, tr = [a0, a1] ∧ tr.map att_kind = [.rawk, .errvk] ∧
      writer 0 a0 = none ∧ (model_validate event).isOk = false) ∨
    (∃ a0 a1, tr = [a0, a1] ∧ tr.map att_kind = [.rawk, .prock] ∧
      writer 0 a0 = none ∧ writer 1 a1 = none ∧
      (model_validate event).isOk = true ∧ out = none) ∨
    (∃ a0 a1 a2 e, tr = [a0, a1, a2] ∧
      tr.map att_kind = [.rawk, .prock, .errpik] ∧
      writer 0 a0 = none ∧ writer 1 a1 = some e ∧
      (model_validate event).isOk = true) := by
  revert hrun
  unfold process_event
  dsimp only
  split
  · intro hrun
    injection hrun with h1 h2
    subst h1; subst h2
    exact Or.inl ⟨rfl, rfl⟩
  · rename_i pd hparse
    have hpd : ∀ x, pd = some x → TimeOk x := by
      intro x hx
      subst hx
      exact parse_rfc3339_timeok publish_time x hparse
    split
    · intro hrun
      injection hrun with h1 h2
      subst h1; subst h2
      exact Or.inl ⟨rfl, rfl⟩
    · rename_i etd_opt hetd
      split
      · intro hrun
        injection hrun with h1 h2
        subst h1; subst h2
        exact Or.inl ⟨rfl, rfl⟩
      · split
        · rename_i e hw0
          intro hrun
          injection hrun with h1 h2
          subst h1; subst h2
          exact Or.inr (Or.inl ⟨_, e, rfl, rfl, hw0, rfl⟩)
        · rename_i hw0
          split
          · rename_i hvnone
            split
            · rename_i hbuild
              obtain ⟨r, hr⟩ := insert_error_row_some message_id pd ingestion_time
                (Option.map (fun v => uuid_str v.event_id) (model_validate event).toOption)
                (strL "validation") (strL "Schema validation failed")
                (match model_validate event with
                 | Except.ok _ => none
                 | Except.error ds => some ds) event attributes config hpd hing
              rw [hr] at hbuild
              exact absurd hbuild (by simp)
            · rename_i err_row herr
              split <;>
                (intro hrun
                 injection hrun with h1 h2
                 subst h1; subst h2
                 refine Or.inr (Or.inr (Or.inl
                   ⟨_, _, rfl, ?_, hw0, except_toOption_none_isOk _ hvnone⟩))
                 simp only [List.map_cons, List.map_nil]
                 rw [att_kind_mk_errv _ err_row _
                   (insert_error_row_stage _ _ _ _ _ _ _ _ _ _ _ herr)]
                 rfl)
          · rename_i v hvsome
            have hok : model_validate event = .ok v := except_toOption_some _ _ hvsome
            rw [hvsome] at hetd
            obtain ⟨etd, hetdeq, htok⟩ := event_time_dtx_valid_tok event v _ hok hetd
            subst hetdeq
            split
            · rename_i hbuild
              obtain ⟨r, hr⟩ := build_processed_row_some v
                (Option.map (fun v => uuid_str v.event_id) (model_validate event).toOption)
                etd ingestion_time htok hing
              rw [hr] at hbuild
              exact absurd hbuild (by simp)
            · rename_i prow hprow
              split
              · rename_i hw1
                intro hrun
                injection hrun with h1 h2
                subst h1; subst h2
                exact Or.inr (Or.inr (Or.inr (Or.inl
                  ⟨_, _, rfl, rfl, hw0, hw1, except_toOption_isOk _ _ hvsome, rfl⟩)))
              · rename_i exc1 hw1
                split
                · rename_i herrb
                  obtain ⟨r, hr⟩ := insert_error_row_some message_id pd ingestion_time
                    (Option.map (fun v => uuid_str v.event_id) (model_validate event).toOption)
                    (strL "processed_insert") (str_of_exc exc1) none event attributes
                    config hpd hing
                  rw [hr] at herrb
                  exact absurd herrb (by simp)
                · rename_i err_row herr
                  split <;>
                    (intro hrun
                     injection hrun with h1 h2
                     subst h1; subst h2
                     refine Or.inr (Or.inr (Or.inr (Or.inr
                       ⟨_, _, _, exc1, rfl, ?_, hw0, hw1,
                        except_toOption_isOk _ _ hvsome⟩)))
                     simp only [List.map_cons, List.map_nil]
                     rw [att_kind_mk_errpi _ err_row _
                       (insert_error_row_stage _ _ _ _ _ _ _ _ _ _ _ herr)]
                     rfl)

/-- C3 (witness): the amended invariant applied to the specification's own
valid scenario with an always-succeeding writer. -/
theorem C3_amended_router_invariant_witness :
    TimeOk ing0 ∧
    (((process_event valid_event0 (some (strL "m-1")) none none ok_writer cfg0
        ing0).1 = [] ∧
      (process_event valid_event0 (some (strL "m-1")) none none ok_writer cfg0
        ing0).2 = some PyExc.overflow) ∨
    (∃ a e, (process_event valid_event0 (some (strL "m-1")) none none ok_writer
        cfg0 ing0).1 = [a] ∧ att_kind a = .rawk ∧ ok_writer 0 a = some e ∧
      (process_event valid_event0 (some (strL "m-1")) none none ok_writer cfg0
        ing0).2 = some e) ∨
    (∃ a0 a1, (process_event valid_event0 (some (strL "m-1")) none none
        ok_writer cfg0 ing0).1 = [a0, a1] ∧
      ((process_event valid_event0 (some (strL "m-1")) none none ok_writer cfg0
        ing0).1.map att_kind) = [.rawk, .errvk] ∧
      ok_writer 0 a0 = none ∧ (model_validate valid_event0).isOk = false) ∨
    (∃ a0 a1, (process_event valid_event0 (some (strL "m-1")) none none
        ok_writer cfg0 ing0).1 = [a0, a1] ∧
      ((process_event valid_event0 (some (strL "m-1")) none none ok_writer cfg0
        ing0).1.map att_kind) = [.rawk, .prock] ∧
      ok_writer 0 a0 = none ∧ ok_writer 1 a1 = none ∧
      (model_validate valid_event0).isOk = true ∧
      (process_event valid_event0 (some (strL "m-1")) none none ok_writer cfg0
        ing0).2 = none) ∨
    (∃ a0 a1 a2 e, (process_event valid_event0 (some (strL "m-1")) none none
        ok_writer cfg0 ing0).1 = [a0, a1, a2] ∧
      ((process_event valid_event0 (some (strL "m-1")) none none ok_writer cfg0
        ing0).1.map att_kind) = [.rawk, .prock, .errpik] ∧
      ok_writer 0 a0 = none ∧ ok_writer 1 a1 = some e ∧
      (model_validate valid_event0).isOk = true)) :=
  ⟨by decide,
    C3_amended_router_invariant valid_event0 (some (strL "m-1")) none none
      ok_writer cfg0 ing0 (by decide) _ _ rfl⟩

/-- C6: validation of an inbound event mapping returns either a validated
event or a non-empty list of field-level defects; the defect list is
exactly the concatenation, in declaration order, of per-field defect
functions each depending only on that field's own payload entry (all
defects collected, no short-circuiting), and every defect's location is
one of the nine declared field names — unrecognized extra keys never
contribute a defect. -/
theorem C6_validator_contract (e : Event) :
    (∃ v, model_validate e = .ok v) ∨
    (∃ ds, model_validate e = .error ds ∧ ds ≠ [] ∧
      ds = (field_names.map (fun k => field_errs k (lookup_key e k))).flatten ∧
      ds.all (fun d => field_names.contains d.loc) = true) := by
  rcases h : model_validate e with ds | v
  · right
    refine ⟨ds, rfl, model_validate_error_ne e ds h, ?_, ?_⟩
    · rw [field_errs_flatten]
      exact model_validate_error_eq e ds h
    · rw [List.all_eq_true]
      intro d hd
      have hds := model_validate_error_eq e ds h
      rw [hds] at hd
      simp only [List.mem_append] at hd
      rcases hd with ((((((((hd | hd) | hd) | hd) | hd) | hd) | hd) | hd) | hd)
      · rw [(v_event_id_spec _).2 d hd]; decide
      · rw [(v_str_field_spec key_user_id _).2 d hd]; decide
      · rw [(v_event_type_spec _).2 d hd]; decide
      · rw [(v_str_field_spec key_product_id _).2 d hd]; decide
      · rw [(v_str_field_spec key_category _).2 d hd]; decide
      · rw [(v_price_spec _).2 d hd]; decide
      · rw [(v_device_spec _).2 d hd]; decide
      · rw [(v_str_field_spec key_city _).2 d hd]; decide
      · rw [(v_event_time_spec _).2 d hd]; decide
  · exact Or.inl ⟨v, rfl⟩

theorem build_raw_row_publish_none (mid eid : Option Str) (ing : DateTime)
    (event : Event) (attrs : Option Attrs) (iv : Bool)
    (verr : Option (List Defect)) (cfg : PipelineConfig) (r : RawRow)
    (h : build_raw_row mid eid none ing event attrs iv verr cfg = some r) :
    r.publish_time = none := by
  unfold build_raw_row at h
  split at h
  · exact absurd h (by simp)
  · rename_i pt hpt
    split at h
    · exact absurd h (by simp)
    · simp only [Option.some.injEq] at h
      subst h
      have : pt = none := Option.some.inj (hpt.symm.trans rfl)
      simp [this]

theorem insert_error_row_publish_none (mid : Option Str) (ing : DateTime)
    (eid : Option Str) (stage emsg : Str) (edetails : Option (List Defect))
    (event : Event) (attrs : Option Attrs) (cfg : PipelineConfig) (r : ErrorRow)
    (h : insert_error_row mid none ing eid stage emsg edetails event attrs cfg = some r) :
    r.publish_time = none := by
  unfold insert_error_row at h
  split at h
  · exact absurd h (by simp)
  · rename_i pt hpt
    split at h
    · exact absurd h (by simp)
    · simp only [Option.some.injEq] at h
      subst h
      have : pt = none := Option.some.inj (hpt.symm.trans rfl)
      simp [this]

theorem model_validate_ok_event_time (e : Event) (v : EcommerceEvent)
    (h : model_validate e = .ok v) :
    v_event_time (lookup_key e key_event_time) = .ok v.event_time := by
  unfold model_validate at h
  dsimp only at h
  split at h
  · rename_i heq9
    simp only [Except.ok.injEq] at h
    subst h
    exact heq9
  · exact absurd h (by simp)

theorem publish_none_rows (event : Event) (message_id : Option Str)
    (attributes : Option Attrs) (writer : SinkWriter) (config : PipelineConfig)
    (ingestion_time : DateTime) :
    ((process_event event message_id none attributes writer config
        ingestion_time).1.map (fun a => row_publish_time a.row)).all
      (fun p => p = none) = true := by
  unfold process_event
  dsimp only
  split
  · rfl
  · rename_i pd hparse
    have hpd0 : pd = none := Option.some.inj (hparse.symm.trans rfl)
    subst hpd0
    split
    · rfl
    · split
      · rfl
      · rename_i raw_row hraw
        have hrp := build_raw_row_publish_none _ _ _ _ _ _ _ _ _ hraw
        split
        · simp [row_publish_time, hrp]
        · split
          · split
            · simp [row_publish_time, hrp]
            · rename_i err_row herr
              have hep := insert_error_row_publish_none _ _ _ _ _ _ _ _ _ _ herr
              split <;> simp [row_publish_time, hrp, hep]
          · split
            · simp [row_publish_time, hrp]
            · split
              · simp [row_publish_time, hrp]
              · split
                · simp [row_publish_time, hrp]
                · rename_i err_row herr
                  have hep := insert_error_row_publish_none _ _ _ _ _ _ _ _ _ _ herr
                  split <;> simp [row_publish_time, hrp, hep]

theorem unparsable_publish_eq (event : Event) (message_id : Option Str)
    (pt : Str) (attributes : Option Attrs) (writer : SinkWriter)
    (config : PipelineConfig) (ingestion_time : DateTime)
    (h : parse_rfc3339_timestamp (some pt) = some none) :
    process_event event message_id (some pt) attributes writer config
        ingestion_time =
      process_event event message_id none attributes writer config
        ingestion_time := by
  unfold process_event
  rw [h]
  rfl

theorem v_event_time_unparsable (s : Str) (h : fromisoformat s = none) :
    v_event_time (some (.str s)) =
      .error [⟨key_event_time, strL "datetime_parsing"⟩] := by
  unfold v_event_time
  dsimp only
  rw [h]

theorem event_time_defect (e : Event) (s : Str)
    (hlook : lookup_key e key_event_time = some (.str s))
    (hiso : fromisoformat s = none) :
    ∃ ds, model_validate e = .error ds ∧ ∃ d ∈ ds, d.loc = key_event_time := by
  have h9 : v_event_time (lookup_key e key_event_time) =
      .error [⟨key_event_time, strL "datetime_parsing"⟩] := by
    rw [hlook]
    exact v_event_time_unparsable s hiso
  rcases h : model_validate e with ds | v
  · refine ⟨ds, rfl, ⟨key_event_time, strL "datetime_parsing"⟩, ?_, rfl⟩
    rw [model_validate_error_eq e ds h]
    simp only [List.mem_append]
    refine Or.inr ?_
    rw [h9]
    simp [errs]
  · have := model_validate_ok_event_time e v h
    rw [h9] at this
    exact absurd this (by simp)

/-- C8: the event_time/publish_time asymmetry.  First conjunct: a
publish_time that `fromisoformat` rejects is treated exactly like an
absent one — the whole call is unchanged — so it never produces a defect or
a failure.  Second conjunct: with an absent (or, via the first conjunct,
unparsable) publish_time, the `publish_time` field of every written row
(raw and error; processed rows have none) is null.  Third conjunct: an
unparsable `event_time` string in the payload makes the record invalid
with a defect located at `event_time`. -/
theorem C8_time_asymmetry :
    (∀ (event : Event) (message_id : Option Str) (pt : Str)
       (attributes : Option Attrs) (writer : SinkWriter) (config : PipelineConfig)
       (ingestion_time : DateTime),
       parse_rfc3339_timestamp (some pt) = some none →
       process_event event message_id (some pt) attributes writer config
           ingestion_time =
         process_event event message_id none attributes writer config
           ingestion_time) ∧
    (∀ (event : Event) (message_id : Option Str) (attributes : Option Attrs)
       (writer : SinkWriter) (config : PipelineConfig) (ingestion_time : DateTime),
       ((process_event event message_id none attributes writer config
           ingestion_time).1.map (fun a => row_publish_time a.row)).all
         (fun p => p = none) = true) ∧
    (∀ (e : Event) (s : Str), lookup_key e key_event_time = some (.str s) →
       fromisoformat s = none →
       ∃ ds, model_validate e = .error ds ∧ ∃ d ∈ ds, d.loc = key_event_time) :=
  ⟨unparsable_publish_eq, publish_none_rows, event_time_defect⟩

/-- C9: the processed-row round-trip.  For any validated event whose
`event_time` is a well-formed datetime and whose price is non-negative
(both guaranteed by the validator), mapping the typed fields into the
processed row (enum `.value` strings, RFC3339 event time) and reading them
back through the validator's own parsing rules reproduces the same enum
members, the numerically equal price, and an event time denoting the same
UTC instant. -/
theorem C9_processed_roundtrip (v : EcommerceEvent) (eid : Option Str)
    (ing etd : DateTime) (row : ProcessedRow)
    (hval : v.event_time.Valid)
    (hpr : Dec.le ⟨0, 0⟩ v.price = true)
    (hnorm : norm_utc v.event_time = some etd)
    (hrow : build_processed_row v eid (some etd) ing = some row) :
    v_event_type (some (.str row.event_type)) = .ok v.event_type ∧
    v_device (some (.str row.device)) = .ok v.device ∧
    v_price (some (.num row.price)) = .ok v.price ∧
    ∃ s dt2, row.event_time = some s ∧ fromisoformat s = some dt2 ∧
      same_instant dt2 v.event_time := by
  have htok : TimeOk etd :=
    norm_utc_time_ok v.event_time hval.2.1 hval.2.2.1 hval.2.2.2.2.2 etd hnorm
  have hvetd : etd.Valid := norm_utc_valid v.event_time hval etd hnorm
  have het : to_rfc3339 (some etd) =
      some (some (iso_core etd ++ [Char.ofNat 90])) := to_rfc3339_timeok etd htok
  unfold build_processed_row at hrow
  rw [het] at hrow
  dsimp only at hrow
  split at hrow
  · exact absurd hrow (by simp)
  · rename_i it hit
    simp only [Option.some.injEq] at hrow
    subst hrow
    refine ⟨v_event_type_roundtrip _, v_device_roundtrip _, v_price_roundtrip _ hpr, ?_⟩
    have hid : with_utc0 etd = etd := by
      have htz := htok.2.2
      cases etd
      simp only [with_utc0]
      dsimp only at htz
      rw [htz]
    refine ⟨iso_core etd ++ [Char.ofNat 90], with_utc0 etd, rfl,
      fromisoformat_iso_tail etd hvetd _ (Or.inr rfl), ?_⟩
    show norm_utc (with_utc0 etd) = norm_utc v.event_time
    rw [hid, norm_utc_timeok_id etd htok, hnorm]

theorem C9_processed_roundtrip_witness :
    valid_model0.event_time.Valid ∧
    Dec.le ⟨0, 0⟩ valid_model0.price = true ∧
    norm_utc valid_model0.event_time = some valid_model0.event_time ∧
    ∃ row, build_processed_row valid_model0 none (some valid_model0.event_time)
        ing0 = some row ∧
      (v_event_type (some (.str row.event_type)) = .ok valid_model0.event_type ∧
       v_device (some (.str row.device)) = .ok valid_model0.device ∧
       v_price (some (.num row.price)) = .ok valid_model0.price ∧
       ∃ s dt2, row.event_time = some s ∧ fromisoformat s = some dt2 ∧
         same_instant dt2 valid_model0.event_time) :=
  ⟨by decide, by decide, by decide,
   _, rfl,
   C9_processed_roundtrip valid_model0 none ing0 valid_model0.event_time _
     (by decide) (by decide) (by decide) rfl⟩

theorem to_rfc3339_opt_ends_z (pd : Option DateTime) (pt : Option Str)
    (h : to_rfc3339 pd = some pt) : none_or_ends_z pt = true := by
  cases pd with
  | none =>
    have : pt = none := (Option.some.inj h).symm
    subst this
    rfl
  | some dt =>
    cases pt with
    | none =>
      unfold to_rfc3339 at h
      dsimp only at h
      split at h
      · exact absurd h (by simp)
      · simp at h
    | some s =>
      simp [none_or_ends_z, to_rfc3339_ends_z dt s h]

theorem build_raw_row_time_ok (mid eid : Option Str) (pd : Option DateTime)
    (ing : DateTime) (event : Event) (attrs : Option Attrs) (iv : Bool)
    (verr : Option (List Defect)) (cfg : PipelineConfig) (r : RawRow)
    (h : build_raw_row mid eid pd ing event attrs iv verr cfg = some r) :
    (row_time_fields (.raw r)).all none_or_ends_z = true := by
  unfold build_raw_row at h
  split at h
  · exact absurd h (by simp)
  · rename_i pt hpt
    split at h
    · exact absurd h (by simp)
    · rename_i it hit
      simp only [Option.some.injEq] at h
      subst h
      simp [row_time_fields, to_rfc3339_opt_ends_z _ _ hpt, to_rfc3339_opt_ends_z _ _ hit]

theorem insert_error_row_time_ok (mid : Option Str) (pd : Option DateTime)
    (ing : DateTime) (eid : Option Str) (stage emsg : Str)
    (edetails : Option (List Defect)) (event : Event) (attrs : Option Attrs)
    (cfg : PipelineConfig) (r : ErrorRow)
    (h : insert_error_row mid pd ing eid stage emsg edetails event attrs cfg = some r) :
    (row_time_fields (.error r)).all none_or_ends_z = true := by
  unfold insert_error_row at h
  split at h
  · exact absurd h (by simp)
  · rename_i pt hpt
    split at h
    · exact absurd h (by simp)
    · rename_i it hit
      simp only [Option.some.injEq] at h
      subst h
      simp [row_time_fields, to_rfc3339_opt_ends_z _ _ hpt, to_rfc3339_opt_ends_z _ _ hit]

theorem build_processed_row_time_ok (v : EcommerceEvent) (eid : Option Str)
    (etd : Option DateTime) (ing : DateTime) (r : ProcessedRow)
    (h : build_processed_row v eid etd ing = some r) :
    (row_time_fields (.processed r)).all none_or_ends_z = true := by
  unfold build_processed_row at h
  split at h
  · exact absurd h (by simp)
  · rename_i et het
    split at h
    · exact absurd h (by simp)
    · rename_i it hit
      simp only [Option.some.injEq] at h
      subst h
      simp [row_time_fields, to_rfc3339_opt_ends_z _ _ het, to_rfc3339_opt_ends_z _ _ hit]

theorem rows_time_fields_z (event : Event) (message_id publish_time : Option Str)
    (attributes : Option Attrs) (writer : SinkWriter) (config : PipelineConfig)
    (ingestion_time : DateTime) :
    ((process_event event message_id publish_time attributes writer config
        ingestion_time).1.all
      (fun a => (row_time_fields a.row).all none_or_ends_z)) = true := by
  unfold process_event
  dsimp only
  split
  · rfl
  · rename_i pd hparse
    split
    · rfl
    · split
      · rfl
      · rename_i raw_row hraw
        have hr := build_raw_row_time_ok _ _ _ _ _ _ _ _ _ _ hraw
        split
        · simp [hr]
        · split
          · split
            · simp [hr]
            · rename_i err_row herr
              have he := insert_error_row_time_ok _ _ _ _ _ _ _ _ _ _ _ herr
              split <;> simp [hr, he]
          · split
            · simp [hr]
            · rename_i processed_row hproc
              have hp := build_processed_row_time_ok _ _ _ _ _ hproc
              split
              · simp [hr, hp]
              · split
                · simp [hr, hp]
                · rename_i err_row herr
                  have he := insert_error_row_time_ok _ _ _ _ _ _ _ _ _ _ _ herr
                  split <;> simp [hr, hp, he]

/-- C10: the implicit UTC/RFC3339 row invariant.  First conjunct:
`_to_rfc3339` treats a timezone-naive datetime exactly as the same fields
stamped UTC.  Second conjunct: whenever `_to_rfc3339` produces a string it
ends in `Z` (a UTC instant in RFC3339 form).  Third conjunct: on every call,
every timestamp field of every row handed to a sink write — publish and
ingestion times of raw and error rows, event and ingestion times of
processed rows — is either null or such a `Z`-terminated string. -/
theorem C10_utc_z_invariant :
    (∀ dt : DateTime, dt.tz = none →
       to_rfc3339 (some dt) = to_rfc3339 (some (with_utc0 dt))) ∧
    (∀ (dt : DateTime) (s : Str), to_rfc3339 (some dt) = some (some s) →
       s.getLast? = some (Char.ofNat 90)) ∧
    (∀ (event : Event) (message_id publish_time : Option Str)
       (attributes : Option Attrs) (writer : SinkWriter) (config : PipelineConfig)
       (ingestion_time : DateTime),
       ((process_event event message_id publish_time attributes writer config
           ingestion_time).1.all
         (fun a => (row_time_fields a.row).all none_or_ends_z)) = true) := by
  refine ⟨?_, to_rfc3339_ends_z, rows_time_fields_z⟩
  intro dt h
  unfold to_rfc3339
  dsimp only
  rw [if_pos h, if_neg (by simp [with_utc0])]

theorem C10_utc_z_invariant_witness :
    (to_rfc3339 (some ⟨2024, 5, 1, 12, 0, 0, 0, none⟩) =
       to_rfc3339 (some (with_utc0 ⟨2024, 5, 1, 12, 0, 0, 0, none⟩))) ∧
    ((strL "2024-05-01T12:00:00Z").getLast? = some (Char.ofNat 90)) ∧
    ((process_event valid_event0 (some (strL "m1"))
        (some (strL "2024-05-01T10:00:00Z")) none ok_writer cfg0 ing0).1.all
      (fun a => (row_time_fields a.row).all none_or_ends_z)) = true :=
  ⟨C10_utc_z_invariant.1 ⟨2024, 5, 1, 12, 0, 0, 0, none⟩ rfl,
   C10_utc_z_invariant.2.1 ⟨2024, 5, 1, 12, 0, 0, 0, some 0⟩
     (strL "2024-05-01T12:00:00Z") (by decide),
   C10_utc_z_invariant.2.2 valid_event0 (some (strL "m1"))
     (some (strL "2024-05-01T10:00:00Z")) none ok_writer cfg0 ing0⟩

theorem C8_time_asymmetry_witness :
    (process_event [] (some (strL "m1")) (some (strL "garbage")) none ok_writer
        cfg0 ing0 =
      process_event [] (some (strL "m1")) none none ok_writer cfg0 ing0) ∧
    (∃ ds, model_validate [(key_event_time, Value.str (strL "garbage"))] =
        .error ds ∧ ∃ d ∈ ds, d.loc = key_event_time) :=
  ⟨C8_time_asymmetry.1 [] (some (strL "m1")) (strL "garbage") none ok_writer
     cfg0 ing0 (by decide),
   C8_time_asymmetry.2.2 [(key_event_time, Value.str (strL "garbage"))]
     (strL "garbage") rfl (by decide)⟩
